import Mathlib

/-!
Shallow embedding of the conversion-and-enrichment pipeline of
`universal_converter.js` (r3habb99/SearchforCommerceScript), together with the
configuration constants of `constants/embeddings.js` and `constants/config.js`.

Modelling conventions, used throughout:
* JavaScript numbers are modelled as `ℚ` (the pipeline's arithmetic is
  add/mul/div on small decimals); machine floats do not appear.
* `Math.sin`, `Math.sqrt` and `Date.now()` are ambient effects of the JS
  environment; they are threaded explicitly through a `JsEnv` record so that
  (in)dependence on the wall clock is a statable property.
* JS strings are Lean `String`s; `charCodeAt` is `Char.toNat` (the inputs of
  interest are BMP text, where the two coincide).
* JS truthiness is modelled where the source relies on it: an empty string,
  the number 0 and `undefined`/`null` are falsy; arrays and objects are truthy.
* Regex-based text cleaning is implemented as character-list scanners that
  implement the concrete regular expressions of the source.
-/

/-! ## Configuration constants (constants/embeddings.js, constants/config.js) -/

/-- `EMBEDDINGS.DENSE_DIM` of constants/embeddings.js. -/
def DENSE_DIM : ℕ := 384

/-- `EMBEDDINGS.MAX_SPARSE_FEATURES` of constants/embeddings.js. -/
def MAX_SPARSE_FEATURES : ℕ := 100

/-- `EMBEDDINGS.ENABLE_DENSE` of constants/embeddings.js. -/
def ENABLE_DENSE : Bool := true

/-- `EMBEDDINGS.ENABLE_SPARSE` of constants/embeddings.js. -/
def ENABLE_SPARSE : Bool := true

/-- `EMBEDDINGS.ENABLE_HYBRID` of constants/embeddings.js. -/
def ENABLE_HYBRID : Bool := true

/-- `CONFIG.LIMITS.MAX_DESCRIPTION_LENGTH` of constants/config.js. -/
def MAX_DESCRIPTION_LENGTH : ℕ := 2000

/-- `CONFIG.LIMITS.MAX_CATEGORIES` of constants/config.js. -/
def MAX_CATEGORIES : ℕ := 10

/-- `CONFIG.LIMITS.MAX_TITLE_LENGTH` of constants/config.js. -/
def MAX_TITLE_LENGTH : ℕ := 500

/-- `CONFIG.COMMERCE` in universal_converter.js: the code reads
`CONFIG.COMMERCE.CURRENCY_CODE`, but the `CONFIG` object built by
constants/config.js has no `COMMERCE` key at all, so the property access
throws a TypeError at runtime.  `none` models the absent key. -/
def CONFIG_COMMERCE : Option String := none

/-! ## JS string primitives -/

/-- JS `\s` (the whitespace class), restricted to its ASCII members, which is
what the catalog text contains. -/
def isJsSpace (c : Char) : Bool :=
  c = ' ' ∨ c = '\t' ∨ c = '\n' ∨ c = '\r' ∨ c = '\x0b' ∨ c = '\x0c'

/-- JS `\w`, i.e. `[A-Za-z0-9_]`. -/
def isWordChar (c : Char) : Bool := c.isAlphanum ∨ c = '_'

/-- JS `String.prototype.trim()` on a character list: strip `\s` from both
ends. -/
def jsTrimList (l : List Char) : List Char :=
  ((l.dropWhile isJsSpace).reverse.dropWhile isJsSpace).reverse

/-- JS `String.prototype.trim()`. -/
def jsTrim (s : String) : String := String.mk (jsTrimList s.data)

/-- Is `t` a contiguous substring of `s` (JS `String.prototype.includes`)? -/
def containsSubList : List Char → List Char → Bool
  | s, t =>
    if t.isPrefixOf s then true
    else match s with
      | [] => false
      | _ :: rest => containsSubList rest t

/-- JS `s.includes(t)`. -/
def jsIncludes (s t : String) : Bool := containsSubList s.data t.data

/-- State machine for the replacement `/<[^>]*>/g → ' '` of `cleanText`:
outside a tag characters pass through; `<` starts buffering; `>` closes the
buffered tag and emits one space; an unterminated `<…` is emitted literally
(the regex finds no match there). -/
def stripTagsAux : List Char → Bool → List Char → List Char
  | [], false, _ => []
  | [], true, buf => buf.reverse
  | c :: rest, false, _ =>
    if c = '<' then stripTagsAux rest true [c] else c :: stripTagsAux rest false []
  | c :: rest, true, buf =>
    if c = '>' then ' ' :: stripTagsAux rest false []
    else stripTagsAux rest true (c :: buf)

/-- The character class `[a-zA-Z0-9#]` of the HTML-entity regex. -/
def isEntityChar (c : Char) : Bool := c.isAlphanum ∨ c = '#'

/-- State machine for the replacement `/&[a-zA-Z0-9#]+;/g → ' '` of
`cleanText`.  The `Option` argument buffers a candidate entity (reversed);
`&;` (no body) is not a match and is emitted literally, and a `&` inside a
failed candidate restarts a candidate, as the regex engine would. -/
def stripEntitiesAux : List Char → Option (List Char) → List Char
  | [], none => []
  | [], some buf => buf.reverse
  | c :: rest, none =>
    if c = '&' then stripEntitiesAux rest (some [c])
    else c :: stripEntitiesAux rest none
  | c :: rest, some buf =>
    if isEntityChar c then stripEntitiesAux rest (some (c :: buf))
    else if c = ';' then
      if 2 ≤ buf.length then ' ' :: stripEntitiesAux rest none
      else buf.reverse ++ ';' :: stripEntitiesAux rest none
    else if c = '&' then buf.reverse ++ stripEntitiesAux rest (some [c])
    else buf.reverse ++ c :: stripEntitiesAux rest none

/-- The replacement `/[^\w\s\-\.\(\)\[\]\/]/g → ' '` of `cleanText`: keep word
characters, whitespace and the punctuation relevant to product codes, map
everything else to a space. -/
def keepProductChar (c : Char) : Char :=
  if isWordChar c ∨ isJsSpace c ∨ c = '-' ∨ c = '.' ∨ c = '(' ∨ c = ')' ∨
      c = '[' ∨ c = ']' ∨ c = '/' then c
  else ' '

/-- Maximal runs of non-whitespace characters, in order (the accumulator is
the current run, reversed). -/
def wordsAux : List Char → List Char → List (List Char)
  | [], cur => if cur.isEmpty then [] else [cur.reverse]
  | c :: rest, cur =>
    if isJsSpace c then
      if cur.isEmpty then wordsAux rest [] else cur.reverse :: wordsAux rest []
    else wordsAux rest (c :: cur)

/-- `TextProcessor.cleanText` (universal_converter.js lines 326–340): strip
HTML tags, strip HTML entities, replace characters outside
`[\w\s\-\.\(\)\[\]\/]` by spaces, collapse whitespace runs and trim.  The
final two regex replacements together amount to joining the maximal
non-whitespace runs with single spaces. -/
def cleanText (s : String) : String :=
  let noTags := stripTagsAux s.data false []
  let noEntities := stripEntitiesAux noTags none
  let kept := noEntities.map keepProductChar
  String.intercalate " " ((wordsAux kept []).map String.mk)

/-! ## Category processing (ProductConverter.processCategories) -/

/-- The promotional-keyword denylist of `processCategories`
(universal_converter.js line 940). -/
def promotionalKeywords : List String :=
  ["sale", "new", "clearance", "promo", "deal", "special", "limited"]

/-- The body of `ProductConverter.processCategories` (lines 942–948) on an
actual array: clean each category, drop the ones whose lowercased text
contains a promotional keyword, truncate to `MAX_CATEGORIES`. -/
def processCategoriesList (categories : List String) : List String :=
  ((categories.map cleanText).filter fun cat =>
      ¬ promotionalKeywords.any fun keyword => jsIncludes cat.toLower keyword).take
    MAX_CATEGORIES

/-- The category fallback applied by both converters (lines 912 and 1103):
`categories.length > 0 ? categories : ['Products']`. -/
def categoriesOrFallback (categories : List String) : List String :=
  if 0 < categories.length then categories else ["Products"]

/-- `ProductConverter.processCategories` (lines 937–949): a non-array argument
yields `[]`, an array goes through the cleaning/filtering/truncation body. -/
def processCategories : Option (List String) → List String
  | some l => processCategoriesList l
  | none => []

/-! ## JS numbers: rounding, formatting, parsing -/

/-- Rounding with ties towards `+∞`, matching the `n` that `Number.toFixed`
picks ("if there are two such n, pick the larger n"). -/
def jsRoundHalfUp (q : ℚ) : ℤ := ⌊q + 1 / 2⌋

/-- `parseFloat(q.toFixed(d))` as a rational: round to `d` decimal places
(`toFixed` negates a negative input first, so its ties go away from zero). -/
def jsRoundTo (d : ℕ) (q : ℚ) : ℚ :=
  (if q < 0 then -(jsRoundHalfUp (-q * 10 ^ d)) else jsRoundHalfUp (q * 10 ^ d) : ℤ) / 10 ^ d

/-- `n / 10^d` printed with exactly `d` digits after the decimal point. -/
def toFixedDigits (d : ℕ) (n : ℕ) : String :=
  let frac := toString (n % 10 ^ d)
  toString (n / 10 ^ d) ++ "." ++ String.mk (List.replicate (d - frac.length) '0') ++ frac

/-- JS `q.toFixed(d)` for `d ≥ 1`. -/
def jsToFixed (d : ℕ) (q : ℚ) : String :=
  if q < 0 then "-" ++ toFixedDigits d (jsRoundHalfUp (-q * 10 ^ d)).toNat
  else toFixedDigits d (jsRoundHalfUp (q * 10 ^ d)).toNat

/-- JS truncation toward zero (the behaviour of `x % 1`'s implicit quotient). -/
def jsTrunc (q : ℚ) : ℤ := if 0 ≤ q then ⌊q⌋ else -⌊-q⌋

/-- JS `x % 1`: the remainder keeps the dividend's sign. -/
def jsMod1 (q : ℚ) : ℚ := q - jsTrunc q

/-- `String(n)` for a JS number, here a rational: integers print as integers;
otherwise the integer part, a point, and the fractional digits (exact for the
terminating decimals the pipeline produces, truncated at 17 digits beyond). -/
def jsNumToString (q : ℚ) : String :=
  if q.den = 1 then toString q.num
  else
    let sign := if q < 0 then "-" else ""
    let a := |q|
    let ip : ℕ := (⌊a⌋).toNat
    let n : ℕ := ((a - ⌊a⌋) * 10 ^ 17).floor.toNat
    let ds := Nat.toDigits 10 n
    let padded := List.replicate (17 - ds.length) '0' ++ ds
    sign ++ toString ip ++ "." ++ String.mk ((padded.reverse.dropWhile (· = '0')).reverse)

/-- Digits to a natural number (the digit run of a numeric literal). -/
def digitsToNat (l : List Char) : ℕ := l.foldl (fun a c => a * 10 + (c.toNat - 48)) 0

/-- JS `Number(s)` for the decimal shapes of interest, `none` for `NaN`:
trimmed empty is 0; otherwise an optional sign and `digits[.digits]` with at
least one digit. -/
def jsNumberOfString (s : String) : Option ℚ :=
  let l := jsTrimList s.data
  if l.isEmpty then some 0
  else
    let signAndRest : ℚ × List Char :=
      match l with
      | '-' :: rest => (-1, rest)
      | '+' :: rest => (1, rest)
      | _ => (1, l)
    let sign := signAndRest.1
    let afterDigits := signAndRest.2.span Char.isDigit
    let ds := afterDigits.1
    match afterDigits.2 with
    | [] => if ds.isEmpty then none else some (sign * digitsToNat ds)
    | '.' :: l3 =>
      let afterFrac := l3.span Char.isDigit
      let fs := afterFrac.1
      if afterFrac.2.isEmpty ∧ ¬(ds.isEmpty ∧ fs.isEmpty) then
        some (sign * ((digitsToNat ds : ℚ) + (digitsToNat fs : ℚ) / 10 ^ fs.length))
      else none
    | _ => none

/-- JS `parseInt(s)`: trim, optional sign, the leading digit run; `none` is
`NaN` (no digits at all). -/
def jsParseIntString (s : String) : Option ℤ :=
  let l := jsTrimList s.data
  let signAndRest : ℤ × List Char :=
    match l with
    | '-' :: rest => (-1, rest)
    | '+' :: rest => (1, rest)
    | _ => (1, l)
  let ds := (signAndRest.2.span Char.isDigit).1
  if ds.isEmpty then none else some (signAndRest.1 * digitsToNat ds)

/-! ## The JS value model and raw products -/

/-- A scalar JSON value as the availability/stock fields carry one. -/
inductive JVal
  | str (s : String)
  | int (n : ℤ)
  | boolean (b : Bool)
deriving DecidableEq

/-- A category-like field: a JSON array of strings or a bare string. -/
inductive JArr
  | arr (values : List String)
  | str (s : String)
deriving DecidableEq

/-- A price-like field: a bare number (generic catalogs) or the vertex object
`{amount, currency}`. -/
inductive JPrice
  | num (amount : ℚ)
  | obj (amount : Option ℚ) (currency : Option String)
deriving DecidableEq

/-- `String(v)` for a scalar value. -/
def jvalToString : JVal → String
  | .str s => s
  | .int n => toString n
  | .boolean b => if b then "true" else "false"

/-- JS truthiness of an optional string (`undefined` and `''` are falsy). -/
def truthyStr : Option String → Bool
  | some s => s ≠ ""
  | none => false

/-- JS truthiness of an optional number (`undefined` and `0` are falsy). -/
def truthyQ : Option ℚ → Bool
  | some q => q ≠ 0
  | none => false

/-- JS truthiness of an array-or-string field (arrays are always truthy). -/
def truthyArr : Option JArr → Bool
  | some (.arr _) => true
  | some (.str s) => s ≠ ""
  | none => false

/-- JS truthiness of a scalar value. -/
def truthyVal : Option JVal → Bool
  | some (.str s) => s ≠ ""
  | some (.int n) => n ≠ 0
  | some (.boolean b) => b
  | none => false

/-- `isNaN(v)` after JS number coercion of a scalar. -/
def jsIsNaNVal : JVal → Bool
  | .str s => (jsNumberOfString s).isNone
  | .int _ => false
  | .boolean _ => false

/-- `parseInt(v)`: numbers pass through (already integral here), strings are
parsed, booleans stringify to `"true"`/`"false"` and parse to `NaN`. -/
def jsParseIntVal : JVal → Option ℤ
  | .int n => some n
  | .str s => jsParseIntString s
  | .boolean _ => none

/-- `a || fallback` for a string-valued field. -/
def jsOrString (v : Option String) (fallback : String) : String :=
  match v with
  | some s => if s = "" then fallback else s
  | none => fallback

/-- An attribute value of the canonical record: `{text: [...]}` or
`{numbers: [...]}`. -/
inductive AttrVal
  | text (values : List String)
  | numbers (values : List ℚ)
deriving DecidableEq

/-- A raw product object: one untyped JSON object, modelled as the optional
fields the two converters consult.  Absent keys are `none`.  The remaining-key
iteration of `processGenericAttributes` walks these fields in declaration
order (JS iterates keys in insertion order; only attribute ordering depends on
it) and then `extra`, which stands for any further source keys. -/
structure RawProduct where
  id : Option String := none
  product_id : Option String := none
  sku : Option String := none
  title : Option String := none
  name : Option String := none
  product_name : Option String := none
  display_name : Option String := none
  categories : Option JArr := none
  category : Option JArr := none
  product_categories : Option JArr := none
  tags : Option JArr := none
  types : Option JArr := none
  description : Option String := none
  details : Option String := none
  summary : Option String := none
  content : Option String := none
  price : Option JPrice := none
  cost : Option ℚ := none
  amount : Option ℚ := none
  value : Option ℚ := none
  brand : Option String := none
  manufacturer : Option String := none
  company : Option String := none
  vendor : Option String := none
  availability : Option JVal := none
  status : Option JVal := none
  stock_status : Option JVal := none
  in_stock : Option JVal := none
  available : Option JVal := none
  quantity : Option JVal := none
  stock : Option JVal := none
  inventory : Option JVal := none
  qty : Option JVal := none
  model : Option JArr := none
  color : Option JArr := none
  size : Option JArr := none
  weight : Option JArr := none
  dimensions : Option JArr := none
  material : Option JArr := none
  features : Option JArr := none
  specifications : Option JArr := none
  keywords : Option JArr := none
  uri : Option String := none
  languageCode : Option String := none
  brands : Option (List String) := none
  attributes : Option (List (String × AttrVal)) := none
  audience_genders : Option (List String) := none
  images : Option (List String) := none
  extra : List (String × JArr) := []
deriving DecidableEq

/-- The price part of a canonical record. -/
structure PriceInfo where
  currencyCode : String
  price : ℚ
deriving DecidableEq

/-- The canonical commerce record both converters emit.  `brands := []`
models the absent `brands` key (the code spreads the key only for a non-empty
array and reads it back as `product.brands || []`). -/
structure Product where
  id : String
  title : String
  categories : List String
  description : String
  uri : String
  availability : String
  languageCode : String
  priceInfo : Option PriceInfo
  brands : List String
  attributes : List (String × AttrVal)
  images : Option (List String)
deriving DecidableEq

/-- The ambient JS environment: the wall clock (`Date.now()`, milliseconds)
and the `Math` functions the embedding generator calls.  `sin`/`sqrt` stand
for the engine's deterministic double-precision implementations. -/
structure JsEnv where
  now : ℕ
  sin : ℚ → ℚ
  sqrt : ℚ → ℚ

/-! ## Attribute objects as insertion-ordered association lists -/

/-- `obj[k]` on an attributes object. -/
def objLookup : List (String × AttrVal) → String → Option AttrVal
  | [], _ => none
  | (k', v) :: rest, k => if k' = k then some v else objLookup rest k

/-- `obj[k] = v`: overwrite in place when the key exists, append otherwise. -/
def objSet (m : List (String × AttrVal)) (k : String) (v : AttrVal) : List (String × AttrVal) :=
  match m with
  | [] => [(k, v)]
  | (k', v') :: rest => if k' = k then (k', v) :: rest else (k', v') :: objSet rest k v

/-! ## ProductConverter: descriptions, prices, uris, availability -/

/-- JS `s.substring(0, n)` (UTF-16 units; code points on the BMP inputs of
interest). -/
def jsSubstring0 (s : String) (n : ℕ) : String := String.mk (s.data.take n)

/-- `ProductConverter.processDescription` (lines 954–962). -/
def processDescription (description : String) : String :=
  if description = "" then ""
  else jsSubstring0 (cleanText description) MAX_DESCRIPTION_LENGTH

/-- `ProductConverter.processPriceInfo` (lines 967–974), called with a truthy
non-`NaN` number.  Building the result object reads
`CONFIG.COMMERCE.CURRENCY_CODE`; with `CONFIG.COMMERCE` absent that property
access throws, modelled as `Except.error`. -/
def processPriceInfo (price : ℚ) : Except String (Option PriceInfo) :=
  if price = 0 then .ok none
  else
    match CONFIG_COMMERCE with
    | some currencyCode => .ok (some { currencyCode := currencyCode, price := price })
    | none => .error "TypeError: cannot read CURRENCY_CODE of undefined"

/-- `a-z` as the uri slug regex tests it. -/
def isLowerAZ (c : Char) : Bool := 'a' ≤ c ∧ c ≤ 'z'

/-- `A-Z`. -/
def isUpperAZ (c : Char) : Bool := 'A' ≤ c ∧ c ≤ 'Z'

/-- The replacement `/\s+/g → '-'` of `generateProductUri`: each maximal
whitespace run becomes one hyphen. -/
def spacesToHyphensAux : List Char → Bool → List Char
  | [], _ => []
  | c :: rest, inRun =>
    if isJsSpace c then
      if inRun then spacesToHyphensAux rest true else '-' :: spacesToHyphensAux rest true
    else c :: spacesToHyphensAux rest false

/-- `ProductConverter.generateProductUri` (lines 979–985): lowercase the
title, delete characters outside `[a-z0-9\s-]`, turn whitespace runs into
hyphens, truncate the slug to 50 characters. -/
def generateProductUri (productId title : String) : String :=
  let lowered := title.data.map Char.toLower
  let kept := lowered.filter fun c => isLowerAZ c ∨ c.isDigit ∨ isJsSpace c ∨ c = '-'
  let slug := String.mk ((spacesToHyphensAux kept false).take 50)
  "/products/" ++ slug ++ "-" ++ productId

/-- One iteration of the explicit-status loop of
`determineGenericAvailability` (lines 1128–1137): the lowercased string of a
present field decides `IN_STOCK`/`OUT_OF_STOCK`, or nothing (the loop
continues). -/
def availabilityFromField (v : JVal) : Option String :=
  let s := (jvalToString v).toLower
  if jsIncludes s "stock" ∨ jsIncludes s "available" ∨ s = "true" ∨ s = "1" then
    some "IN_STOCK"
  else if jsIncludes s "out" ∨ s = "false" ∨ s = "0" then some "OUT_OF_STOCK"
  else none

/-- The explicit-status loop over `availability, status, stock_status,
in_stock, available`: the first present field whose value resolves wins. -/
def resolveAvailabilityFields (p : RawProduct) : Option String :=
  [p.availability, p.status, p.stock_status, p.in_stock, p.available].foldl
    (fun acc f => acc.orElse fun _ => f.bind availabilityFromField) none

/-- One iteration of the quantity loop (lines 1140–1144): a present,
non-`NaN` field returns `parseInt(v) > 0 ? IN_STOCK : OUT_OF_STOCK`
(`NaN > 0` is false, so an unparsable integer gives `OUT_OF_STOCK`). -/
def quantityFromField (v : JVal) : Option String :=
  if jsIsNaNVal v then none
  else
    some
      (match jsParseIntVal v with
      | some n => if 0 < n then "IN_STOCK" else "OUT_OF_STOCK"
      | none => "OUT_OF_STOCK")

/-- The quantity loop over `quantity, stock, inventory, qty`. -/
def resolveQuantityFields (p : RawProduct) : Option String :=
  [p.quantity, p.stock, p.inventory, p.qty].foldl
    (fun acc f => acc.orElse fun _ => f.bind quantityFromField) none

/-- `ProductConverter.determineGenericAvailability` (lines 1124–1148):
explicit status fields first, then quantity fields, then the `IN_STOCK`
default. -/
def determineGenericAvailability (p : RawProduct) : String :=
  ((resolveAvailabilityFields p).orElse fun _ => resolveQuantityFields p).getD "IN_STOCK"

/-! ## ProductConverter.convertVertexProduct -/

/-- `ProductConverter.processVertexAttributes` (lines 1000–1033): copy the
source attributes, add `gender_esai` from `audience.genders`, and extend a
pre-existing `filter_fields.text` with the genders not already present. -/
def processVertexAttributes (vertexProduct : RawProduct) : List (String × AttrVal) :=
  let attributes := vertexProduct.attributes.getD []
  match vertexProduct.audience_genders with
  | none => attributes
  | some genders =>
    let attributes := objSet attributes "gender_esai" (.text genders)
    match objLookup attributes "filter_fields" with
    | some (.text currentFilterFields) =>
      let newFilterFields :=
        genders.foldl (fun acc gender => if acc.contains gender then acc else acc ++ [gender])
          currentFilterFields
      objSet attributes "filter_fields" (.text newFilterFields)
    | _ => attributes

/-- `price.currency || CONFIG.COMMERCE.CURRENCY_CODE` of
`convertVertexProduct`: a falsy currency falls through to the absent
`CONFIG.COMMERCE` and throws. -/
def vertexCurrencyCode (currency : Option String) : Except String String :=
  match currency with
  | some c =>
    if c = "" then
      match CONFIG_COMMERCE with
      | some cc => .ok cc
      | none => .error "TypeError: cannot read CURRENCY_CODE of undefined"
    else .ok c
  | none =>
    match CONFIG_COMMERCE with
    | some cc => .ok cc
    | none => .error "TypeError: cannot read CURRENCY_CODE of undefined"

/-- The `...(vertexProduct.price && { priceInfo: ... })` spread of
`convertVertexProduct` (lines 917–920).  A number `0` is falsy (no price); a
present truthy price builds `{currencyCode, price: parseFloat(amount || 0)}`,
which throws when the currency is falsy. -/
def vertexPriceInfo (price : Option JPrice) : Except String (Option PriceInfo) :=
  match price with
  | none => .ok none
  | some (.num a) =>
    if a = 0 then .ok none
    else do
      let cc ← vertexCurrencyCode none
      .ok (some { currencyCode := cc, price := 0 })
  | some (.obj amount currency) => do
    let cc ← vertexCurrencyCode currency
    .ok (some { currencyCode := cc, price := amount.getD 0 })

/-- `ProductConverter.convertVertexProduct` (lines 897–932).  The catch
(lines 928–931) turns any thrown error into `null`, modelled as `none`.
A non-string source `availability` would be passed through verbatim by JS;
here it appears as its string coercion. -/
def convertVertexProduct (env : JsEnv) (vertexProduct : RawProduct) : Option Product :=
  let productId := jsOrString vertexProduct.id ("vertex-product-" ++ toString env.now)
  let title :=
    jsSubstring0 (cleanText (jsOrString vertexProduct.title "Untitled Product")) MAX_TITLE_LENGTH
  let categories :=
    match vertexProduct.categories.getD (.arr []) with
    | .arr l => processCategories (some l)
    | .str _ => processCategories none
  let description := processDescription (jsOrString vertexProduct.description "")
  match vertexPriceInfo vertexProduct.price with
  | .error _ => none
  | .ok priceInfo =>
    some
      { id := productId
        title := title
        categories := categoriesOrFallback categories
        description := description
        uri := jsOrString vertexProduct.uri (generateProductUri productId title)
        availability :=
          match vertexProduct.availability with
          | some v => if truthyVal (some v) then jvalToString v else "IN_STOCK"
          | none => "IN_STOCK"
        languageCode := jsOrString vertexProduct.languageCode "en"
        priceInfo := priceInfo
        brands :=
          match vertexProduct.brands with
          | some l => if 0 < l.length then l else []
          | none => []
        attributes := processVertexAttributes vertexProduct
        images := vertexProduct.images }

/-! ## ProductConverter.convertGenericProduct -/

/-- First truthy value of a field chain (a JS `||`-style loop with `break`). -/
def firstTruthyStr : List (Option String) → Option String
  | [] => none
  | f :: rest =>
    match f with
    | some s => if s ≠ "" then some s else firstTruthyStr rest
    | none => firstTruthyStr rest

/-- First truthy number of a field chain (`0` is falsy, the loop continues). -/
def firstTruthyNum : List (Option ℚ) → Option ℚ
  | [] => none
  | f :: rest =>
    match f with
    | some q => if q ≠ 0 then some q else firstTruthyNum rest
    | none => firstTruthyNum rest

/-- First truthy array-or-string of the category field chain. -/
def firstTruthyArr : List (Option JArr) → Option JArr
  | [] => none
  | f :: rest =>
    match f with
    | some v => if truthyArr (some v) then some v else firstTruthyArr rest
    | none => firstTruthyArr rest

/-- The category extraction loop of `convertGenericProduct` (lines
1056–1067): the first truthy field among `categories, category,
product_categories, tags, types`; an array is used as is, a string is
wrapped. -/
def genericCategoriesRaw (p : RawProduct) : List String :=
  match firstTruthyArr [p.categories, p.category, p.product_categories, p.tags, p.types] with
  | some (.arr l) => l
  | some (.str s) => [s]
  | none => []

/-- The price loop of `convertGenericProduct` (lines 1081–1087) over
`price, cost, amount, value`: the first truthy non-`NaN` number (an object
price is `NaN` and is skipped; `0` is falsy and is skipped). -/
def genericPriceCandidate (p : RawProduct) : Option ℚ :=
  match p.price with
  | some (.num q) =>
    if q ≠ 0 then some q else firstTruthyNum [p.cost, p.amount, p.value]
  | _ => firstTruthyNum [p.cost, p.amount, p.value]

/-- The values of an array-or-string field as `processGenericAttributes`
renders them (`Array.isArray ? values : [String(value)]`). -/
def jarrValues : JArr → List String
  | .arr l => l
  | .str s => [s]

/-- The `systemFields` denylist of `processGenericAttributes` (line 1182). -/
def systemFields : List String :=
  ["id", "title", "name", "description", "price", "categories", "brand", "availability"]

/-- One entry of the `attributeFields` step of `processGenericAttributes`
(lines 1171–1179): a truthy source field stores
`{text: values.map(cleanText ∘ String)}` under the same name. -/
def attributeFieldStep (attrs : List (String × AttrVal)) (key : String) (v : Option JArr) :
    List (String × AttrVal) :=
  match v with
  | some a =>
    if truthyArr (some a) then objSet attrs key (.text ((jarrValues a).map cleanText))
    else attrs
  | none => attrs

/-- One key of the remaining-fields step of `processGenericAttributes`
(lines 1183–1191): a present (non-null) key outside `systemFields` that did
not get an attribute above is stored as `custom_<key>`. -/
def customFieldStep (attrs : List (String × AttrVal)) (key : String) (present : Bool)
    (values : List String) : List (String × AttrVal) :=
  if present ∧ ¬ systemFields.contains key ∧ (objLookup attrs key).isNone then
    objSet attrs ("custom_" ++ key) (.text (values.map cleanText))
  else attrs

/-- The string values JS would render for an option of strings. -/
def optStrValues : Option String → List String
  | some s => [s]
  | none => []

/-- The string values JS would render for a scalar field. -/
def optValValues : Option JVal → List String
  | some v => [jvalToString v]
  | none => []

/-- The string values JS would render for a numeric field. -/
def optNumValues : Option ℚ → List String
  | some q => [jsNumToString q]
  | none => []

/-- The string values JS would render for an array-or-string field. -/
def optArrValues : Option JArr → List String
  | some a => jarrValues a
  | none => []

/-- `ProductConverter.processGenericAttributes` (lines 1153–1194): the fixed
`attributeFields` mapping first, then every remaining present key (in the
declaration order of `RawProduct`, standing for JS insertion order) as a
`custom_` attribute.  Object-valued keys stringify to `"[object Object]"`,
as `String(object)` does. -/
def processGenericAttributes (p : RawProduct) : List (String × AttrVal) :=
  let attrs : List (String × AttrVal) := []
  let attrs := attributeFieldStep attrs "sku" (p.sku.map .str)
  let attrs := attributeFieldStep attrs "model" p.model
  let attrs := attributeFieldStep attrs "color" p.color
  let attrs := attributeFieldStep attrs "size" p.size
  let attrs := attributeFieldStep attrs "weight" p.weight
  let attrs := attributeFieldStep attrs "dimensions" p.dimensions
  let attrs := attributeFieldStep attrs "material" p.material
  let attrs := attributeFieldStep attrs "features" p.features
  let attrs := attributeFieldStep attrs "specifications" p.specifications
  let attrs := attributeFieldStep attrs "keywords" p.keywords
  let attrs := attributeFieldStep attrs "tags" p.tags
  let attrs := customFieldStep attrs "id" p.id.isSome (optStrValues p.id)
  let attrs := customFieldStep attrs "product_id" p.product_id.isSome (optStrValues p.product_id)
  let attrs := customFieldStep attrs "sku" p.sku.isSome (optStrValues p.sku)
  let attrs := customFieldStep attrs "title" p.title.isSome (optStrValues p.title)
  let attrs := customFieldStep attrs "name" p.name.isSome (optStrValues p.name)
  let attrs := customFieldStep attrs "product_name" p.product_name.isSome (optStrValues p.product_name)
  let attrs := customFieldStep attrs "display_name" p.display_name.isSome (optStrValues p.display_name)
  let attrs := customFieldStep attrs "categories" p.categories.isSome (optArrValues p.categories)
  let attrs := customFieldStep attrs "category" p.category.isSome (optArrValues p.category)
  let attrs := customFieldStep attrs "product_categories" p.product_categories.isSome (optArrValues p.product_categories)
  let attrs := customFieldStep attrs "tags" p.tags.isSome (optArrValues p.tags)
  let attrs := customFieldStep attrs "types" p.types.isSome (optArrValues p.types)
  let attrs := customFieldStep attrs "description" p.description.isSome (optStrValues p.description)
  let attrs := customFieldStep attrs "details" p.details.isSome (optStrValues p.details)
  let attrs := customFieldStep attrs "summary" p.summary.isSome (optStrValues p.summary)
  let attrs := customFieldStep attrs "content" p.content.isSome (optStrValues p.content)
  let attrs := customFieldStep attrs "price" p.price.isSome ["[object Object]"]
  let attrs := customFieldStep attrs "cost" p.cost.isSome (optNumValues p.cost)
  let attrs := customFieldStep attrs "amount" p.amount.isSome (optNumValues p.amount)
  let attrs := customFieldStep attrs "value" p.value.isSome (optNumValues p.value)
  let attrs := customFieldStep attrs "brand" p.brand.isSome (optStrValues p.brand)
  let attrs := customFieldStep attrs "manufacturer" p.manufacturer.isSome (optStrValues p.manufacturer)
  let attrs := customFieldStep attrs "company" p.company.isSome (optStrValues p.company)
  let attrs := customFieldStep attrs "vendor" p.vendor.isSome (optStrValues p.vendor)
  let attrs := customFieldStep attrs "availability" p.availability.isSome (optValValues p.availability)
  let attrs := customFieldStep attrs "status" p.status.isSome (optValValues p.status)
  let attrs := customFieldStep attrs "stock_status" p.stock_status.isSome (optValValues p.stock_status)
  let attrs := customFieldStep attrs "in_stock" p.in_stock.isSome (optValValues p.in_stock)
  let attrs := customFieldStep attrs "available" p.available.isSome (optValValues p.available)
  let attrs := customFieldStep attrs "quantity" p.quantity.isSome (optValValues p.quantity)
  let attrs := customFieldStep attrs "stock" p.stock.isSome (optValValues p.stock)
  let attrs := customFieldStep attrs "inventory" p.inventory.isSome (optValValues p.inventory)
  let attrs := customFieldStep attrs "qty" p.qty.isSome (optValValues p.qty)
  let attrs := customFieldStep attrs "model" p.model.isSome (optArrValues p.model)
  let attrs := customFieldStep attrs "color" p.color.isSome (optArrValues p.color)
  let attrs := customFieldStep attrs "size" p.size.isSome (optArrValues p.size)
  let attrs := customFieldStep attrs "weight" p.weight.isSome (optArrValues p.weight)
  let attrs := customFieldStep attrs "dimensions" p.dimensions.isSome (optArrValues p.dimensions)
  let attrs := customFieldStep attrs "material" p.material.isSome (optArrValues p.material)
  let attrs := customFieldStep attrs "features" p.features.isSome (optArrValues p.features)
  let attrs := customFieldStep attrs "specifications" p.specifications.isSome (optArrValues p.specifications)
  let attrs := customFieldStep attrs "keywords" p.keywords.isSome (optArrValues p.keywords)
  let attrs := customFieldStep attrs "uri" p.uri.isSome (optStrValues p.uri)
  let attrs := customFieldStep attrs "languageCode" p.languageCode.isSome (optStrValues p.languageCode)
  let attrs := customFieldStep attrs "brands" p.brands.isSome (p.brands.getD [])
  let attrs := customFieldStep attrs "attributes" p.attributes.isSome ["[object Object]"]
  let attrs := customFieldStep attrs "audience" p.audience_genders.isSome ["[object Object]"]
  let attrs := customFieldStep attrs "images" p.images.isSome (p.images.getD [])
  p.extra.foldl (fun attrs kv => customFieldStep attrs kv.1 true (jarrValues kv.2)) attrs

/-- `ProductConverter.convertGenericProduct` (lines 1041–1119).  The catch
(lines 1115–1118) turns any thrown error into `null` (`none`); the only
throwing step is `processPriceInfo`'s read of the absent `CONFIG.COMMERCE`. -/
def convertGenericProduct (env : JsEnv) (genericProduct : RawProduct) : Option Product :=
  let productId :=
    jsOrString genericProduct.id
      (jsOrString genericProduct.product_id
        (jsOrString genericProduct.sku ("generic-product-" ++ toString env.now)))
  let title :=
    jsSubstring0
      (cleanText
        (jsOrString genericProduct.title
          (jsOrString genericProduct.name
            (jsOrString genericProduct.product_name
              (jsOrString genericProduct.display_name "Untitled Product")))))
      MAX_TITLE_LENGTH
  let categories := processCategoriesList (genericCategoriesRaw genericProduct)
  let description :=
    processDescription
      (jsOrString genericProduct.description
        (jsOrString genericProduct.details
          (jsOrString genericProduct.summary (jsOrString genericProduct.content ""))))
  let priceInfoE : Except String (Option PriceInfo) :=
    match genericPriceCandidate genericProduct with
    | none => .ok none
    | some q => processPriceInfo q
  let brands :=
    match firstTruthyStr
        [genericProduct.brand, genericProduct.manufacturer, genericProduct.company,
          genericProduct.vendor] with
    | some b => [b]
    | none => []
  match priceInfoE with
  | .error _ => none
  | .ok priceInfo =>
    some
      { id := productId
        title := title
        categories := categoriesOrFallback categories
        description := description
        uri := generateProductUri productId title
        availability := determineGenericAvailability genericProduct
        languageCode := "en"
        priceInfo := priceInfo
        brands := brands
        attributes := processGenericAttributes genericProduct
        images := none }

/-! ## Format detection and the per-file pipeline -/

/-- The shape of a parsed top-level JSON value. -/
inductive TopLevelJson
  | arrayOf (products : List RawProduct)
  | objProducts (products : List RawProduct)
  | objData (products : List RawProduct)
  | objItems (products : List RawProduct)
  | single (product : RawProduct)

/-- The structure handling of `StreamingJSONParser.parseWithFallback`
(lines 281–292): unwrap `products`/`data`/`items`, wrap a single object.
The streaming parser produces the same record sequence. -/
def parseWithFallbackShape : TopLevelJson → List RawProduct
  | .arrayOf products => products
  | .objProducts products => products
  | .objData products => products
  | .objItems products => products
  | .single product => [product]

/-- `UniversalConverter.detectFormatAndExtractProducts` (lines 1557–1598). -/
def detectFormatAndExtractProducts (jsonData : TopLevelJson) (formatHint : String) :
    List RawProduct × String :=
  let detectedFormat := if formatHint ≠ "auto" then formatHint else "generic"
  match jsonData with
  | .arrayOf products =>
    match products with
    | [] => (products, detectedFormat)
    | firstProduct :: _ =>
      (products,
        if formatHint = "auto" then
          if truthyStr firstProduct.title ∨ truthyArr firstProduct.categories then "vertex"
          else "generic"
        else detectedFormat)
  | .objProducts products =>
    (products, if formatHint = "auto" then "vertex" else detectedFormat)
  | .objData products => (products, detectedFormat)
  | .objItems products => (products, detectedFormat)
  | .single product => ([product], detectedFormat)

/-- The format-detection step of `UniversalConverter.processAnyJSONFile`
(line 1367): the parsed product array is re-wrapped in a fresh
`{ products }` object before `detectFormatAndExtractProducts` is consulted. -/
def processAnyJSONFileFormat (input : TopLevelJson) (formatHint : String) : String :=
  let products := parseWithFallbackShape input
  (detectFormatAndExtractProducts (.objProducts products) formatHint).2

/-- The per-record conversion dispatch of
`UniversalConverter.processBatchWithRetry` (lines 1504–1511).  (The `'bpn'`
branch calls `convertBPNProduct`, a method `ProductConverter` does not
define, so it throws on every attempt and the record fails; that branch is
unreachable under `'auto'` detection.) -/
def convertForFormat (env : JsEnv) (detectedFormat : String) (product : RawProduct) :
    Option Product :=
  if detectedFormat = "bpn" then none
  else if detectedFormat = "vertex" then convertVertexProduct env product
  else convertGenericProduct env product

/-! ## EmbeddingGenerator: the deterministic hash and the dense vector -/

/-- `ToInt32`: the 32-bit two's-complement wrap that `<<` and `&` apply. -/
def toInt32 (x : ℤ) : ℤ := (x + 2 ^ 31) % 2 ^ 32 - 2 ^ 31

/-- One iteration of `EmbeddingGenerator.hashString` (lines 492–500):
`hash = ((hash << 5) - hash) + char; hash = hash & hash`.  The shift wraps to
int32, the sum is exact, `& hash` wraps the sum to int32. -/
def hashStep (hash : ℤ) (char : ℕ) : ℤ := toInt32 (toInt32 (hash * 32) - hash + char)

/-- `EmbeddingGenerator.hashString`: fold the UTF-16 code units (here
`Char.toNat`, identical on the BMP), then `Math.abs`. -/
def hashString (str : String) : ℕ :=
  (str.data.foldl (fun hash c => hashStep hash c.toNat) 0).natAbs

/-- `EmbeddingGenerator.generateDenseEmbedding` (lines 506–521): seed the
`DENSE_DIM` components from the text hash through `Math.sin`, round each to 6
decimals, then L2-normalize with `Math.sqrt`.  Returns `null` when dense
embeddings are disabled.  (With a zero magnitude JS would produce `NaN`
components; `ℚ` division by zero gives 0 instead.) -/
def generateDenseEmbedding (env : JsEnv) (text : String) : Option (List ℚ) :=
  if ENABLE_DENSE then
    let hash := hashString text
    let embedding :=
      (List.range DENSE_DIM).map fun i =>
        jsRoundTo 6 (jsMod1 (env.sin ((hash : ℚ) + i) * 10000))
    let magnitude := env.sqrt (embedding.foldl (fun sum val => sum + val * val) 0)
    some (embedding.map (· / magnitude))
  else none

/-! ## EmbeddingGenerator: the sparse vector -/

/-- An entry of `TextProcessor.extractKeywords`' output. -/
structure Keyword where
  term : String
  weight : ℚ
  rawFreq : ℚ
deriving DecidableEq

/-- The type of `TextProcessor.extractKeywords` (text, maxFeatures, context).
`generateSparseEmbedding` composes with it through `this.textProcessor`; the
embedding keeps it as an explicit parameter, so every theorem below holds for
the actual extractor as a special case. -/
def Extractor : Type := String → ℕ → String → List Keyword

/-- `combined.get(term)` over the insertion-ordered combined map. -/
def weightLookup : List (String × ℚ) → String → Option ℚ
  | [], _ => none
  | (k', w) :: rest, k => if k' = k then some w else weightLookup rest k

/-- `combined.set(term, (combined.get(term) || 0) + δ)` over an
insertion-ordered map. -/
def mapAddWeight (m : List (String × ℚ)) (k : String) (δ : ℚ) : List (String × ℚ) :=
  match m with
  | [] => [(k, δ)]
  | (k', w) :: rest => if k' = k then (k', w + δ) :: rest else (k', w) :: mapAddWeight rest k δ

/-- One `forEach` of `generateSparseEmbedding` (lines 555–577): fold a
component's keywords into the combined map with its boost. -/
def addComponentKeywords (m : List (String × ℚ)) (kws : List Keyword) (boost : ℚ) :
    List (String × ℚ) :=
  kws.foldl (fun m kw => mapAddWeight m kw.term (kw.weight * boost)) m

/-- Stable insertion of one entry into a weight-descending list: the entry
goes after every earlier entry of greater-or-equal weight, as the stable
`Array.prototype.sort` with comparator `(a, b) => b - a` places it. -/
def insertDescWeight (x : String × ℚ) : List (String × ℚ) → List (String × ℚ)
  | [] => [x]
  | y :: rest => if y.2 < x.2 then x :: y :: rest else y :: insertDescWeight x rest

/-- The stable descending sort `(a, b) => b - a` of line 581. -/
def sortDescWeight (l : List (String × ℚ)) : List (String × ℚ) :=
  l.foldr insertDescWeight []

/-- The combined map of `generateSparseEmbedding`: general keywords with base
weight, then title ×2.5, category ×2.0, brand ×2.0, attributes ×1.5. -/
def combinedKeywordEntries (general title category brand attrs : List Keyword) :
    List (String × ℚ) :=
  let m := addComponentKeywords [] general 1
  let m := addComponentKeywords m title (5 / 2)
  let m := addComponentKeywords m category 2
  let m := addComponentKeywords m brand 2
  addComponentKeywords m attrs (3 / 2)

/-- The searchable components of a record, as both
`extractSearchableText` and `extractSearchableComponents` build them. -/
structure SearchComponents where
  title : String
  description : String
  categories : String
  brands : String
  attributes : String
  keywords : String
  specifications : String
deriving DecidableEq

/-- The five `extractKeywords` calls of `generateSparseEmbedding`. -/
def sparseGeneral (extract : Extractor) (text : String) : List Keyword :=
  extract text MAX_SPARSE_FEATURES "general"

/-- Title-focused extraction: 20 features, context `title`; `[]` when the
component is falsy or absent. -/
def sparseTitle (extract : Extractor) (comps : Option SearchComponents) : List Keyword :=
  match comps with
  | some c => if c.title ≠ "" then extract c.title 20 "title" else []
  | none => []

/-- Category-focused extraction: 15 features, context `category`. -/
def sparseCategory (extract : Extractor) (comps : Option SearchComponents) : List Keyword :=
  match comps with
  | some c => if c.categories ≠ "" then extract c.categories 15 "category" else []
  | none => []

/-- Brand-focused extraction: 10 features, context `brand`. -/
def sparseBrand (extract : Extractor) (comps : Option SearchComponents) : List Keyword :=
  match comps with
  | some c => if c.brands ≠ "" then extract c.brands 10 "brand" else []
  | none => []

/-- Attribute-focused extraction: 25 features, context `attributes`. -/
def sparseAttributes (extract : Extractor) (comps : Option SearchComponents) : List Keyword :=
  match comps with
  | some c => if c.attributes ≠ "" then extract c.attributes 25 "attributes" else []
  | none => []

/-- The combined, boosted map for one call of `generateSparseEmbedding`. -/
def sparseCombined (extract : Extractor) (text : String) (comps : Option SearchComponents) :
    List (String × ℚ) :=
  combinedKeywordEntries (sparseGeneral extract text) (sparseTitle extract comps)
    (sparseCategory extract comps) (sparseBrand extract comps) (sparseAttributes extract comps)

/-- The successful body of `generateSparseEmbedding` (lines 579–585): sort
by combined weight descending, truncate to `MAX_SPARSE_FEATURES`, format each
entry as `term:weight` with `toFixed(4)`. -/
def sparseBody (extract : Extractor) (text : String) (comps : Option SearchComponents) :
    List String :=
  ((sortDescWeight (sparseCombined extract text comps)).take MAX_SPARSE_FEATURES).map
    fun p => p.1 ++ ":" ++ jsToFixed 4 p.2

/-- `EmbeddingGenerator.generateSparseEmbedding` (lines 526–586): `null`
when sparse embeddings are disabled, the formatted ranked list otherwise. -/
def generateSparseEmbedding (extract : Extractor) (text : String)
    (searchableComponents : Option SearchComponents) : Option (List String) :=
  if ENABLE_SPARSE then some (sparseBody extract text searchableComponents) else none

/-! ## Search pattern extraction (TextProcessor.extractSearchPatterns) -/

/-- Does the word boundary `\b` hold before this suffix (i.e. at the end of a
match)?  True at end of input or before a non-word character. -/
def boundaryOk : List Char → Bool
  | [] => true
  | c :: _ => ¬ isWordChar c

/-- Case-insensitive literal prefix match: `w` is the lowercase literal;
returns the consumed source characters and the rest. -/
def ciPrefix : List Char → List Char → Option (List Char × List Char)
  | [], l => some ([], l)
  | _ :: _, [] => none
  | w :: ws, c :: cs =>
    if c.toLower = w then (ciPrefix ws cs).map fun p => (c :: p.1, p.2) else none

/-- Try the word alternatives of an alternation in order, each with the
trailing `\b`; a failed boundary falls through to the next alternative, as
the regex engine backtracks. -/
def tryWordAlt : List String → List Char → Option (List Char × List Char)
  | [], _ => none
  | w :: ws, l =>
    match ciPrefix w.data l with
    | some (m, rest) => if boundaryOk rest then some (m, rest) else tryWordAlt ws l
    | none => tryWordAlt ws l

/-- The word alternatives of `TEXT_PATTERNS.SIZES`. -/
def sizeWords : List String := ["small", "medium", "large", "xl", "xxl"]

/-- The unit alternatives of `TEXT_PATTERNS.SIZES`' numeric branch. -/
def sizeUnits : List String := ["oz", "ml", "g", "kg", "lb", "lbs", "mg", "mcg"]

/-- The numeric branch `\d+\s*(oz|ml|g|kg|lb|lbs|mg|mcg)` of the sizes
pattern: a digit run, optional whitespace, a unit with its boundary. -/
def trySizeNum (l : List Char) : Option (List Char × List Char) :=
  let ds := (l.span Char.isDigit).1
  let rest := (l.span Char.isDigit).2
  if ds.isEmpty then none
  else
    let sp := (rest.span isJsSpace).1
    let rest2 := (rest.span isJsSpace).2
    match tryWordAlt sizeUnits rest2 with
    | some (u, rest3) => some (ds ++ sp ++ u, rest3)
    | none => none

/-- Global scan for `TEXT_PATTERNS.SIZES` (`/\b(small|medium|large|xl|xxl|
\d+\s*(oz|ml|g|kg|lb|lbs|mg|mcg))\b/gi`).  The Boolean tracks whether the
previous character was a word character (no `\b` there); the fuel bounds the
scan by the input length, which every step consumes. -/
def sizesScanF : ℕ → List Char → Bool → List String
  | 0, _, _ => []
  | _ + 1, [], _ => []
  | fuel + 1, c :: rest, prev =>
    if prev then sizesScanF fuel rest (isWordChar c)
    else
      match tryWordAlt sizeWords (c :: rest) with
      | some (m, rest') => String.mk m :: sizesScanF fuel rest' true
      | none =>
        match trySizeNum (c :: rest) with
        | some (m, rest') => String.mk m :: sizesScanF fuel rest' true
        | none => sizesScanF fuel rest (isWordChar c)

/-- The word list of `TEXT_PATTERNS.COLORS`. -/
def colorWords : List String :=
  ["red", "blue", "green", "yellow", "black", "white", "brown", "pink", "purple",
    "orange", "gray", "grey"]

/-- Global scan for `TEXT_PATTERNS.COLORS` (word alternation, `/gi`). -/
def colorsScanF : ℕ → List Char → Bool → List String
  | 0, _, _ => []
  | _ + 1, [], _ => []
  | fuel + 1, c :: rest, prev =>
    if prev then colorsScanF fuel rest (isWordChar c)
    else
      match tryWordAlt colorWords (c :: rest) with
      | some (m, rest') => String.mk m :: colorsScanF fuel rest' true
      | none => colorsScanF fuel rest (isWordChar c)

/-- The scanner states of the `TEXT_PATTERNS.NUMBERS` scan
(`/\b\d+(?:\.\d+)?\b/g`); buffers are reversed. -/
inductive NumScanState
  | plain (prevWord : Bool)
  | intPart (buf : List Char)
  | dotPart (buf : List Char)
  | fracPart (ibuf fbuf : List Char)

/-- Global scan for the numbers pattern.  A digit run followed by a word
character fails its trailing boundary and is discarded; a failed fractional
part backtracks to the integer part (whose boundary at the `.` holds). -/
def numScan : List Char → NumScanState → List String
  | [], .plain _ => []
  | [], .intPart buf => [String.mk buf.reverse]
  | [], .dotPart buf => [String.mk buf.reverse]
  | [], .fracPart ibuf fbuf => [String.mk (ibuf.reverse ++ '.' :: fbuf.reverse)]
  | c :: rest, .plain prev =>
    if c.isDigit ∧ ¬ prev then numScan rest (.intPart [c])
    else numScan rest (.plain (isWordChar c))
  | c :: rest, .intPart buf =>
    if c.isDigit then numScan rest (.intPart (c :: buf))
    else if c = '.' then numScan rest (.dotPart buf)
    else if isWordChar c then numScan rest (.plain true)
    else String.mk buf.reverse :: numScan rest (.plain false)
  | c :: rest, .dotPart buf =>
    if c.isDigit then numScan rest (.fracPart buf [c])
    else String.mk buf.reverse :: numScan rest (.plain (isWordChar c))
  | c :: rest, .fracPart ibuf fbuf =>
    if c.isDigit then numScan rest (.fracPart ibuf (c :: fbuf))
    else if isWordChar c then String.mk ibuf.reverse :: numScan rest (.plain true)
    else
      String.mk (ibuf.reverse ++ '.' :: fbuf.reverse) :: numScan rest (.plain false)

/-- One `[A-Z][a-z]+` word of the brands pattern, with its trailing
boundary. -/
def tryCapWord (l : List Char) : Option (List Char × List Char) :=
  match l with
  | [] => none
  | c :: rest =>
    if isUpperAZ c then
      let ls := (rest.span isLowerAZ).1
      let rest2 := (rest.span isLowerAZ).2
      if ls.isEmpty then none
      else if boundaryOk rest2 then some (c :: ls, rest2)
      else none
    else none

/-- The greedy `(?:\s+[A-Z][a-z]+)*` extension of a brand match. -/
def tryBrandExtension : ℕ → List Char → List Char → List Char × List Char
  | 0, acc, l => (acc, l)
  | fuel + 1, acc, l =>
    let sp := (l.span isJsSpace).1
    let rest := (l.span isJsSpace).2
    if sp.isEmpty then (acc, l)
    else
      match tryCapWord rest with
      | some (w, rest2) => tryBrandExtension fuel (acc ++ sp ++ w) rest2
      | none => (acc, l)

/-- Global scan for `TEXT_PATTERNS.BRANDS`
(`/\b[A-Z][a-z]+(?:\s+[A-Z][a-z]+)*\b/g`). -/
def brandsScanF : ℕ → List Char → Bool → List String
  | 0, _, _ => []
  | _ + 1, [], _ => []
  | fuel + 1, c :: rest, prev =>
    if prev then brandsScanF fuel rest (isWordChar c)
    else
      match tryCapWord (c :: rest) with
      | some (w, rest2) =>
        let ext := tryBrandExtension rest2.length w rest2
        String.mk ext.1 :: brandsScanF fuel ext.2 true
      | none => brandsScanF fuel rest (isWordChar c)

/-- `text.match(TEXT_PATTERNS.SIZES) || []`. -/
def matchSizes (s : String) : List String := sizesScanF s.data.length s.data false

/-- `text.match(TEXT_PATTERNS.COLORS) || []`. -/
def matchColors (s : String) : List String := colorsScanF s.data.length s.data false

/-- `text.match(TEXT_PATTERNS.NUMBERS) || []`. -/
def matchNumbers (s : String) : List String := numScan s.data (.plain false)

/-- `text.match(TEXT_PATTERNS.BRANDS) || []`. -/
def matchBrands (s : String) : List String := brandsScanF s.data.length s.data false

/-- The result of `TextProcessor.extractSearchPatterns` (lines 458–478); an
empty list models an absent field (the code only sets a field for a non-empty
match list, and callers test the field's truthiness). -/
structure SearchPatterns where
  sizes : List String
  colors : List String
  brands : List String
  numbers : List String
deriving DecidableEq

/-- `TextProcessor.extractSearchPatterns`: sizes and colors in full, brands
capped at 3, numbers capped at 5. -/
def extractSearchPatterns (text : String) : SearchPatterns :=
  { sizes := matchSizes text
    colors := matchColors text
    brands := (matchBrands text).take 3
    numbers := (matchNumbers text).take 5 }

/-! ## Searchable text and components of a canonical record -/

/-- A JS array is truthy whatever its contents (`product.title ||
product.categories` in the auto-detection of `extractSearchableText`). -/
def jsTruthyList (_ : List String) : Bool := true

/-- The attribute texts `extractSearchableText` collects (lines 634–645):
`text` values as they are, `numbers` values through `String`. -/
def attrSearchTexts (attributes : List (String × AttrVal)) : List String :=
  attributes.foldl
    (fun acc kv =>
      match kv.2 with
      | .text l => acc ++ l
      | .numbers l => acc ++ l.map jsNumToString)
    []

/-- The component record built inside
`EmbeddingGenerator.extractSearchableText` (lines 606–664).  A canonical
record has no `name`, `tags`, `features`, `specifications` or `keywords`
keys, so those fallbacks read as absent; `priceInfo.price` is appended to the
specifications when truthy. -/
def extractSearchableTextComponents (product : Product) (format : String) : SearchComponents :=
  let fmt :=
    if format = "auto" then
      if product.title ≠ "" ∨ jsTruthyList product.categories then "vertex" else "generic"
    else format
  if fmt = "vertex" ∨ fmt = "generic" then
    { title := cleanText product.title
      description := cleanText product.description
      categories := String.intercalate " " (product.categories.map cleanText)
      brands := String.intercalate " " (product.brands.map cleanText)
      attributes := String.intercalate " " (attrSearchTexts product.attributes)
      keywords := ""
      specifications :=
        match product.priceInfo with
        | some pi =>
          if pi.price ≠ 0 then
            " " ++ jsNumToString pi.price ++ " " ++
              (if pi.currencyCode = "" then "USD" else pi.currencyCode)
          else ""
        | none => "" }
  else
    { title := "", description := "", categories := "", brands := "", attributes := ""
      keywords := "", specifications := "" }

/-- `EmbeddingGenerator.extractSearchableText` (lines 606–698): the weighted
join (title ×5, categories ×3, brands ×3, description ×2, attributes ×2,
keywords, specifications), then the size/color/number pattern matches, then
the `MAX_DESCRIPTION_LENGTH * 3` truncation. -/
def extractSearchableText (product : Product) (format : String) : String :=
  let comps := extractSearchableTextComponents product format
  let weightedText :=
    String.intercalate " "
      (([comps.title, comps.title, comps.title, comps.title, comps.title,
          comps.categories, comps.categories, comps.categories,
          comps.brands, comps.brands, comps.brands,
          comps.description, comps.description,
          comps.attributes, comps.attributes,
          comps.keywords, comps.specifications].filter (· ≠ "")))
  let patterns := extractSearchPatterns weightedText
  let patternText :=
    (if patterns.sizes ≠ [] then " " ++ String.intercalate " " patterns.sizes else "") ++
      (if patterns.colors ≠ [] then " " ++ String.intercalate " " patterns.colors else "") ++
      (if patterns.numbers ≠ [] then " " ++ String.intercalate " " patterns.numbers else "")
  jsSubstring0 (weightedText ++ patternText) (MAX_DESCRIPTION_LENGTH * 3)

/-- The `text` attribute values only (lines 803–811). -/
def attrTextValues (attributes : List (String × AttrVal)) : List String :=
  attributes.foldl
    (fun acc kv =>
      match kv.2 with
      | .text l => acc ++ l
      | .numbers _ => acc)
    []

/-- `EmbeddingGenerator.extractSearchableComponents` (lines 786–814); its
`format` parameter is unused by the source body too. -/
def extractSearchableComponents (product : Product) (_format : String) : SearchComponents :=
  { title := cleanText product.title
    description := cleanText product.description
    categories := String.intercalate " " (product.categories.map cleanText)
    brands := String.intercalate " " (product.brands.map cleanText)
    attributes := String.intercalate " " (attrTextValues product.attributes)
    keywords := ""
    specifications := "" }

/-! ## Multi-context dense embeddings, readiness score, enrichment -/

/-- The `embeddings` object of `generateMultipleDenseEmbeddings` (lines
819–838).  With `ENABLE_DENSE = true` a key is set exactly when its `Option`
is `some`, so `Object.keys(...)` counts the `some` fields. -/
structure DenseEmbeddings where
  primary : Option (List ℚ)
  title : Option (List ℚ)
  category : Option (List ℚ)
deriving DecidableEq

/-- `Object.keys(denseEmbeddings).length`. -/
def denseKeyCount (d : DenseEmbeddings) : ℕ :=
  (if d.primary.isSome then 1 else 0) + (if d.title.isSome then 1 else 0) +
    (if d.category.isSome then 1 else 0)

/-- `EmbeddingGenerator.generateMultipleDenseEmbeddings`: the primary vector
from the full weighted text, and title/category vectors when those component
texts are truthy and non-blank. -/
def generateMultipleDenseEmbeddings (env : JsEnv) (searchableText : String)
    (searchableComponents : SearchComponents) : DenseEmbeddings :=
  { primary := if ENABLE_DENSE then generateDenseEmbedding env searchableText else none
    title :=
      if searchableComponents.title ≠ "" ∧ jsTrim searchableComponents.title ≠ "" then
        generateDenseEmbedding env searchableComponents.title
      else none
    category :=
      if searchableComponents.categories ≠ "" ∧ jsTrim searchableComponents.categories ≠ "" then
        generateDenseEmbedding env searchableComponents.categories
      else none }

/-- `EmbeddingGenerator.calculateSearchReadinessScore` (lines 857–878):
sequential weighted credits for the present components, then
`parseFloat(score.toFixed(2))`. -/
def calculateSearchReadinessScore (components : SearchComponents)
    (denseEmbeddings : DenseEmbeddings) (sparseEmbedding : Option (List String)) : ℚ :=
  let score : ℚ := 0
  let score :=
    if components.title ≠ "" ∧ jsTrim components.title ≠ "" then score + 3 / 10 else score
  let score :=
    if components.categories ≠ "" ∧ jsTrim components.categories ≠ "" then score + 1 / 4
    else score
  let score :=
    if components.description ≠ "" ∧ jsTrim components.description ≠ "" then score + 1 / 5
    else score
  let score := if 0 < denseKeyCount denseEmbeddings then score + 1 / 10 else score
  let score :=
    if 0 < (sparseEmbedding.getD []).length then score + 1 / 20 else score
  let score :=
    if components.brands ≠ "" ∧ jsTrim components.brands ≠ "" then score + 1 / 20 else score
  let score :=
    if components.attributes ≠ "" ∧ jsTrim components.attributes ≠ "" then score + 1 / 20
    else score
  jsRoundTo 2 score

/-- `EmbeddingGenerator.generateEnhancedHybridMetadata` (lines 843–852): the
metadata holds only the readiness score; `null` when hybrid metadata is
disabled. -/
def generateEnhancedHybridMetadata (_searchableText : String)
    (denseEmbeddings : DenseEmbeddings) (sparseEmbedding : Option (List String))
    (searchableComponents : SearchComponents) : Option ℚ :=
  if ENABLE_HYBRID then
    some (calculateSearchReadinessScore searchableComponents denseEmbeddings sparseEmbedding)
  else none

/-- The guarded attribute assignments of `addEmbeddingsToProduct` (lines
736–773): the dense vectors, the non-empty sparse vector, the truthy
readiness score, then unconditionally `embedding_count` with
`Object.keys(denseEmbeddings).length + (sparseEmbedding ? 1 : 0)` (an empty
sparse array is still truthy). -/
def injectEmbeddingAttrs (attrs : List (String × AttrVal)) (denseEmbeddings : DenseEmbeddings)
    (sparseEmbedding : Option (List String)) (hybridMetadata : Option ℚ) :
    List (String × AttrVal) :=
  let attrs :=
    match denseEmbeddings.primary with
    | some v => objSet attrs "dense_embedding" (.numbers v)
    | none => attrs
  let attrs :=
    match denseEmbeddings.title with
    | some v => objSet attrs "title_embedding" (.numbers v)
    | none => attrs
  let attrs :=
    match denseEmbeddings.category with
    | some v => objSet attrs "category_embedding" (.numbers v)
    | none => attrs
  let attrs :=
    match sparseEmbedding with
    | some l => if 0 < l.length then objSet attrs "sparse_embedding" (.text l) else attrs
    | none => attrs
  let attrs :=
    match hybridMetadata with
    | some score =>
      if score ≠ 0 then objSet attrs "search_readiness_score" (.numbers [score]) else attrs
    | none => attrs
  objSet attrs "embedding_count"
    (.numbers [(denseKeyCount denseEmbeddings : ℚ) + (if sparseEmbedding.isSome then 1 else 0)])

/-- The `try` body of `EmbeddingGenerator.addEmbeddingsToProduct` (lines
703–776).  `fault` models an exception thrown by the generation calls inside
the `try` (in JS any of them may throw; the catch at line 777 is total); the
empty-text early return precedes every generation step.  The
`JSON.parse(JSON.stringify(product))` deep copy is the identity of a pure
value, so the attribute injections start from the record's own attributes. -/
def addEmbeddingsTry (fault : Option String) (env : JsEnv) (extract : Extractor)
    (product : Product) (format : String) : Except String Product :=
  let searchableText := extractSearchableText product format
  if jsTrim searchableText = "" then .ok product
  else
    let searchableComponents := extractSearchableComponents product format
    match fault with
    | some e => .error e
    | none =>
      let denseEmbeddings := generateMultipleDenseEmbeddings env searchableText searchableComponents
      let sparseEmbedding :=
        generateSparseEmbedding extract searchableText (some searchableComponents)
      let hybridMetadata :=
        generateEnhancedHybridMetadata searchableText denseEmbeddings sparseEmbedding
          searchableComponents
      .ok
        { product with
            attributes :=
              injectEmbeddingAttrs product.attributes denseEmbeddings sparseEmbedding
                hybridMetadata }

/-- `EmbeddingGenerator.addEmbeddingsToProduct`: the catch (lines 777–780)
returns the argument unchanged on any thrown error. -/
def addEmbeddingsToProduct (fault : Option String) (env : JsEnv) (extract : Extractor)
    (product : Product) (format : String) : Product :=
  match addEmbeddingsTry fault env extract product format with
  | .ok productWithEmbeddings => productWithEmbeddings
  | .error _ => product

/-- The attribute keys the enrichment may write. -/
def generatedAttrKeys : List String :=
  ["dense_embedding", "title_embedding", "category_embedding", "sparse_embedding",
    "search_readiness_score", "embedding_count"]

/-! ## The checkpointed run (UniversalConverter.processAllDataFiles) -/

/-- Modelled from the spec: `CONFIG.PROCESSING.CHECKPOINT_ENABLED` lives in
`constants/processing.js`, which is not part of the repository snapshot; the
spec (§4.5, "Checkpointing: ...") specifies the checkpoint system as active,
so the toggle is `true`. -/
def CHECKPOINT_ENABLED : Bool := true

/-- What a run leaves behind, for the checkpoint claims: which files were
handed to `processFileWithTracking` (and hence opened and parsed), which of
those failed, whether the pre-existing checkpoint store was erased, and
whether the run aborted with a run-level error. -/
structure RunOutcome where
  openedFiles : List String
  failedFiles : List String
  checkpointDeleted : Bool
  runFailed : Bool
deriving DecidableEq

/-- `UniversalConverter.processAllDataFiles` (lines 1760–1865) over an
abstract per-file outcome.  `checkpointExists` says whether checkpoint data
exists at startup (`loadCheckpoint`, lines 1249–1261); `checkpointFiles` is
its completed set.  An empty discovery throws (line 1308), is rethrown by the
outer catch, and skips the cleanup.  Otherwise every non-completed file is
processed — `processFileWithTracking` (lines 1870–1917) catches per-file
errors and records them — and the cleanup (lines 1845–1848) unlinks the
checkpoint unconditionally after the loop. -/
def processAllDataFilesRun (checkpointExists : Bool) (checkpointFiles : List String)
    (discovered : List String) (fileSucceeds : String → Bool) : RunOutcome :=
  let resuming := CHECKPOINT_ENABLED ∧ checkpointExists
  if discovered.isEmpty then
    { openedFiles := [], failedFiles := [], checkpointDeleted := false, runFailed := true }
  else
    let filesToProcess :=
      if resuming then discovered.filter (fun f => ¬ checkpointFiles.contains f)
      else discovered
    { openedFiles := filesToProcess
      failedFiles := filesToProcess.filter (fun f => ¬ fileSucceeds f)
      checkpointDeleted := CHECKPOINT_ENABLED ∧ checkpointExists
      runFailed := false }

/-! ## Spec-side definitions (for the refinement-style claims) -/

/-- The total weight a term receives from one component extraction: the sum
of the weights of its occurrences. -/
def sumWeights (l : List Keyword) (t : String) : ℚ :=
  ((l.filter fun kw => kw.term = t).map Keyword.weight).sum

/-- The spec's combined sparse weight of a term: per-component sums scaled by
the fixed boosts — general ×1.0, title ×2.5, category ×2.0, brand ×2.0,
attributes ×1.5. -/
def specCombinedWeight (general title category brand attrs : List Keyword) (t : String) : ℚ :=
  sumWeights general t + 5 / 2 * sumWeights title t + 2 * sumWeights category t +
    2 * sumWeights brand t + 3 / 2 * sumWeights attrs t

/-- The spec's readiness formula: the fixed weighted sum of presence
indicators (title 0.30, categories 0.25, description 0.20, any dense vector
0.10, non-empty sparse vector 0.05, brands 0.05, attributes 0.05), where a
text is present when it is non-blank. -/
def readinessIndicatorSum (components : SearchComponents) (denseEmbeddings : DenseEmbeddings)
    (sparseEmbedding : Option (List String)) : ℚ :=
  (if jsTrim components.title ≠ "" then 3 / 10 else 0) +
    (if jsTrim components.categories ≠ "" then 1 / 4 else 0) +
    (if jsTrim components.description ≠ "" then 1 / 5 else 0) +
    (if 0 < denseKeyCount denseEmbeddings then 1 / 10 else 0) +
    (if 0 < (sparseEmbedding.getD []).length then 1 / 20 else 0) +
    (if jsTrim components.brands ≠ "" then 1 / 20 else 0) +
    (if jsTrim components.attributes ≠ "" then 1 / 20 else 0)

/-! ## Concrete sample values for closed runs -/

/-- A fixed JS environment: clock at 0, a fixed mathematical library. -/
def sampleEnv : JsEnv := { now := 0, sin := fun _ => 0, sqrt := fun _ => 0 }

/-- The same mathematical library at a later wall-clock instant. -/
def sampleEnvLater : JsEnv := { now := 1, sin := fun _ => 0, sqrt := fun _ => 0 }

/-- An extractor yielding no keywords, for concrete runs. -/
def emptyExtractor : Extractor := fun _ _ _ => []

/-- A minimal canonical record. -/
def sampleRecord : Product :=
  { id := "p1", title := "W", categories := ["P"], description := ""
    uri := "/products/w-p1", availability := "IN_STOCK", languageCode := "en"
    priceInfo := none, brands := [], attributes := [], images := none }

/-- A canonical record that already carries an `embedding_count` attribute
(as a record re-imported from a previous run's output would). -/
def preloadedRecord : Product :=
  { sampleRecord with id := "p2", attributes := [("embedding_count", .text [])] }

/-- Scenario B's bare-array element `{"name":"Widget","cost":5}`. -/
def widgetRaw : RawProduct := { name := some "Widget", cost := some 5 }

/-- A source record offering no id field. -/
def noIdRecord : RawProduct := { name := some "Widget" }

/-- A vertex-format source record with a nonstandard availability string. -/
def backorderRaw : RawProduct :=
  { title := some "Chair", availability := some (.str "BACKORDER") }

deriving instance DecidableEq for Except

/-! ## Helper lemmas -/

theorem objLookup_objSet_self (m : List (String × AttrVal)) (k : String) (v : AttrVal) :
    objLookup (objSet m k v) k = some v := by
  induction m with
  | nil => simp [objSet, objLookup]
  | cons hd tl ih =>
    obtain ⟨k', v'⟩ := hd
    unfold objSet
    by_cases h : k' = k
    · rw [if_pos h]
      subst h
      simp [objLookup]
    · rw [if_neg h]
      simp only [objLookup]
      rw [if_neg h]
      exact ih

theorem objLookup_objSet_ne (m : List (String × AttrVal)) (k k' : String) (v : AttrVal)
    (h : k ≠ k') : objLookup (objSet m k' v) k = objLookup m k := by
  induction m with
  | nil => simp [objSet, objLookup, Ne.symm h]
  | cons hd tl ih =>
    obtain ⟨k₀, v₀⟩ := hd
    unfold objSet
    by_cases h0 : k₀ = k'
    · rw [if_pos h0]
      subst h0
      simp [objLookup, Ne.symm h]
    · rw [if_neg h0]
      simp only [objLookup]
      by_cases hk : k₀ = k
      · rw [if_pos hk, if_pos hk]
      · rw [if_neg hk, if_neg hk]
        exact ih

theorem weightLookup_mapAddWeight (m : List (String × ℚ)) (k k' : String) (δ : ℚ) :
    weightLookup (mapAddWeight m k' δ) k =
      if k = k' then some ((weightLookup m k).getD 0 + δ) else weightLookup m k := by
  induction m with
  | nil =>
    by_cases h : k = k'
    · subst h
      simp [mapAddWeight, weightLookup]
    · simp [mapAddWeight, weightLookup, h, Ne.symm h]
  | cons hd tl ih =>
    obtain ⟨k₀, w₀⟩ := hd
    unfold mapAddWeight
    by_cases h0 : k₀ = k'
    · rw [if_pos h0]
      subst h0
      by_cases h : k = k₀
      · subst h
        simp [weightLookup]
      · simp [weightLookup, Ne.symm h, h]
    · rw [if_neg h0]
      simp only [weightLookup]
      by_cases hk : k₀ = k
      · subst hk
        simp [h0]
      · rw [if_neg hk, if_neg hk, ih]

theorem sumWeights_cons (kw : Keyword) (rest : List Keyword) (k : String) :
    sumWeights (kw :: rest) k =
      (if kw.term = k then kw.weight else 0) + sumWeights rest k := by
  by_cases h : kw.term = k <;> simp [sumWeights, List.filter, h]

theorem weightLookup_addComponentKeywords (l : List Keyword) (m : List (String × ℚ)) (b : ℚ)
    (k : String) :
    (weightLookup (addComponentKeywords m l b) k).getD 0 =
      (weightLookup m k).getD 0 + b * sumWeights l k := by
  induction l generalizing m with
  | nil => simp [addComponentKeywords, sumWeights]
  | cons kw rest ih =>
    have step : addComponentKeywords m (kw :: rest) b =
        addComponentKeywords (mapAddWeight m kw.term (kw.weight * b)) rest b := by
      simp [addComponentKeywords]
    rw [step, ih, weightLookup_mapAddWeight, sumWeights_cons]
    by_cases h : k = kw.term
    · rw [if_pos h, if_pos (h.symm : kw.term = k)]
      simp
      ring
    · rw [if_neg h, if_neg (fun hh : kw.term = k => h hh.symm)]
      ring

theorem mapAddWeight_keys (m : List (String × ℚ)) (k : String) (δ : ℚ) :
    (mapAddWeight m k δ).map Prod.fst =
      if k ∈ m.map Prod.fst then m.map Prod.fst else m.map Prod.fst ++ [k] := by
  induction m with
  | nil => simp [mapAddWeight]
  | cons hd tl ih =>
    obtain ⟨k₀, w₀⟩ := hd
    unfold mapAddWeight
    by_cases h0 : k₀ = k
    · rw [if_pos h0]
      subst h0
      simp
    · rw [if_neg h0]
      simp only [List.map_cons, List.mem_cons]
      by_cases hc : k ∈ tl.map Prod.fst
      · simp [ih, hc, Ne.symm h0]
      · simp [ih, hc, Ne.symm h0]

theorem mapAddWeight_keys_nodup (m : List (String × ℚ)) (k : String) (δ : ℚ)
    (h : (m.map Prod.fst).Nodup) : ((mapAddWeight m k δ).map Prod.fst).Nodup := by
  rw [mapAddWeight_keys]
  by_cases hc : k ∈ m.map Prod.fst
  · rw [if_pos hc]
    exact h
  · rw [if_neg hc]
    refine List.Nodup.append h (List.nodup_singleton k) ?_
    intro x hx hk
    rcases List.mem_singleton.mp hk with rfl
    exact hc hx

theorem weightLookup_of_mem (m : List (String × ℚ)) (h : (m.map Prod.fst).Nodup)
    (p : String × ℚ) (hp : p ∈ m) : weightLookup m p.1 = some p.2 := by
  induction m with
  | nil => cases hp
  | cons hd tl ih =>
    obtain ⟨k₀, w₀⟩ := hd
    simp only [List.map_cons, List.nodup_cons] at h
    rcases List.mem_cons.mp hp with rfl | hp'
    · simp [weightLookup]
    · have hk : k₀ ≠ p.1 := fun hh => h.1 (hh ▸ List.mem_map_of_mem Prod.fst hp')
      simp [weightLookup, hk, ih h.2 hp']

theorem addComponentKeywords_keys_nodup (l : List Keyword) (m : List (String × ℚ)) (b : ℚ)
    (h : (m.map Prod.fst).Nodup) :
    ((addComponentKeywords m l b).map Prod.fst).Nodup := by
  induction l generalizing m with
  | nil => simpa [addComponentKeywords] using h
  | cons kw rest ih =>
    have step : addComponentKeywords m (kw :: rest) b =
        addComponentKeywords (mapAddWeight m kw.term (kw.weight * b)) rest b := by
      simp [addComponentKeywords]
    rw [step]
    exact ih _ (mapAddWeight_keys_nodup _ _ _ h)

theorem sparseCombined_keys_nodup (extract : Extractor) (text : String)
    (comps : Option SearchComponents) :
    ((sparseCombined extract text comps).map Prod.fst).Nodup := by
  unfold sparseCombined combinedKeywordEntries
  exact addComponentKeywords_keys_nodup _ _ _
    (addComponentKeywords_keys_nodup _ _ _
      (addComponentKeywords_keys_nodup _ _ _
        (addComponentKeywords_keys_nodup _ _ _
          (addComponentKeywords_keys_nodup _ _ _ (by simp)))))

theorem mem_insertDescWeight (x y : String × ℚ) (l : List (String × ℚ)) :
    y ∈ insertDescWeight x l ↔ y = x ∨ y ∈ l := by
  induction l with
  | nil => simp [insertDescWeight]
  | cons hd tl ih =>
    unfold insertDescWeight
    by_cases h : hd.2 < x.2
    · rw [if_pos h]
      simp [List.mem_cons]
    · rw [if_neg h]
      simp only [List.mem_cons, ih]
      tauto

theorem pairwise_insertDescWeight (x : String × ℚ) (l : List (String × ℚ))
    (h : l.Pairwise fun a b => b.2 ≤ a.2) :
    (insertDescWeight x l).Pairwise fun a b => b.2 ≤ a.2 := by
  induction l with
  | nil => simp [insertDescWeight]
  | cons hd tl ih =>
    rcases List.pairwise_cons.mp h with ⟨hhd, htl⟩
    unfold insertDescWeight
    by_cases hlt : hd.2 < x.2
    · rw [if_pos hlt]
      refine List.pairwise_cons.mpr ⟨?_, h⟩
      intro z hz
      rcases List.mem_cons.mp hz with rfl | hz'
      · exact le_of_lt hlt
      · exact le_trans (hhd z hz') (le_of_lt hlt)
    · rw [if_neg hlt]
      refine List.pairwise_cons.mpr ⟨?_, ih htl⟩
      intro z hz
      rcases (mem_insertDescWeight x z tl).mp hz with rfl | hz'
      · exact not_lt.mp hlt
      · exact hhd z hz'

theorem sortDescWeight_pairwise (l : List (String × ℚ)) :
    (sortDescWeight l).Pairwise fun a b => b.2 ≤ a.2 := by
  induction l with
  | nil => simp [sortDescWeight]
  | cons hd tl ih => exact pairwise_insertDescWeight hd _ ih

theorem jsRoundTo_two_bounds (q : ℚ) (h0 : 0 ≤ q) (h1 : q ≤ 1) :
    0 ≤ jsRoundTo 2 q ∧ jsRoundTo 2 q ≤ 1 := by
  unfold jsRoundTo jsRoundHalfUp
  rw [if_neg (not_lt.mpr h0)]
  constructor
  · refine div_nonneg ?_ (by norm_num)
    exact_mod_cast Int.floor_nonneg.mpr (by positivity)
  · have hle : (⌊q * 10 ^ 2 + 1 / 2⌋ : ℤ) ≤ 100 := by
      have h201 : (⌊(201 : ℚ) / 2⌋ : ℤ) = 100 := by
        rw [Int.floor_eq_iff]
        norm_num
      calc (⌊q * 10 ^ 2 + 1 / 2⌋ : ℤ) ≤ ⌊(201 : ℚ) / 2⌋ :=
            Int.floor_le_floor (by nlinarith)
        _ = 100 := h201
    rw [div_le_one (by norm_num)]
    exact_mod_cast hle

theorem jsTrim_empty : jsTrim "" = "" := rfl

theorem truthy_and_trim_iff (s : String) : (s ≠ "" ∧ jsTrim s ≠ "") ↔ jsTrim s ≠ "" := by
  constructor
  · exact fun h => h.2
  · intro h
    refine ⟨fun hs => h ?_, h⟩
    rw [hs]
    rfl

theorem append_ne_empty_left (s t : String) (h : s ≠ "") : s ++ t ≠ "" := by
  intro hc
  apply h
  have hd : s.data ++ t.data = [] := by
    rw [← String.data_append, hc]
  exact String.ext (List.append_eq_nil.mp hd).1

theorem jsOrString_ne_empty (v : Option String) (fallback : String) (h : fallback ≠ "") :
    jsOrString v fallback ≠ "" := by
  cases v with
  | none => exact h
  | some s =>
    by_cases hs : s = ""
    · simpa [jsOrString, hs] using h
    · simp [jsOrString, hs]

/-- C8: category normalization removes every category whose cleaned text
contains a promotional keyword (case-insensitive substring), truncates the
survivors to `MAX_CATEGORIES`, and the converter-side fallback replaces an
empty result by `["Products"]`, so the emitted list is never empty. -/
theorem c8_category_denylist (categories : List String) :
    processCategoriesList categories =
      ((categories.map cleanText).filter fun cat =>
          ¬ promotionalKeywords.any fun keyword => jsIncludes cat.toLower keyword).take
        MAX_CATEGORIES ∧
    (processCategoriesList categories).length ≤ MAX_CATEGORIES ∧
    (∀ cat ∈ processCategoriesList categories, ∀ keyword ∈ promotionalKeywords,
      jsIncludes cat.toLower keyword = false) ∧
    processCategories (some categories) = processCategoriesList categories ∧
    categoriesOrFallback (processCategoriesList categories) ≠ [] := by
  refine ⟨rfl, ?_, ?_, rfl, ?_⟩
  · unfold processCategoriesList
    simp [List.length_take]
  · intro cat hcat keyword hkw
    have hmem := List.mem_of_mem_take (by simpa [processCategoriesList] using hcat)
    have hfil := (List.mem_filter.mp hmem).2
    simp only [List.any_eq_true, decide_eq_true_eq, not_exists, not_and,
      Bool.not_eq_true, decide_not, Bool.not_eq_true'] at hfil
    exact hfil keyword hkw
  · unfold categoriesOrFallback
    by_cases h : 0 < (processCategoriesList categories).length
    · rw [if_pos h]
      exact List.ne_nil_of_length_pos h
    · rw [if_neg h]
      simp

/-- C3: the readiness score is the rounded fixed weighted sum of the presence
indicators, and it always lies in `[0, 1]`. -/
theorem c3_readiness_score (components : SearchComponents) (denseEmbeddings : DenseEmbeddings)
    (sparseEmbedding : Option (List String)) :
    calculateSearchReadinessScore components denseEmbeddings sparseEmbedding =
      jsRoundTo 2 (readinessIndicatorSum components denseEmbeddings sparseEmbedding) ∧
    0 ≤ calculateSearchReadinessScore components denseEmbeddings sparseEmbedding ∧
    calculateSearchReadinessScore components denseEmbeddings sparseEmbedding ≤ 1 := by
  have step : ∀ (c : Prop) [Decidable c] (x w : ℚ), (if c then x + w else x) = x + (if c then w else 0) := by
    intro c hc x w
    split <;> simp
  have hEq : calculateSearchReadinessScore components denseEmbeddings sparseEmbedding =
      jsRoundTo 2 (readinessIndicatorSum components denseEmbeddings sparseEmbedding) := by
    unfold calculateSearchReadinessScore readinessIndicatorSum
    simp only [truthy_and_trim_iff, step, zero_add]
  have hind : 0 ≤ readinessIndicatorSum components denseEmbeddings sparseEmbedding ∧
      readinessIndicatorSum components denseEmbeddings sparseEmbedding ≤ 1 := by
    unfold readinessIndicatorSum
    have t1 : 0 ≤ (if jsTrim components.title ≠ "" then (3 : ℚ) / 10 else 0) ∧
        (if jsTrim components.title ≠ "" then (3 : ℚ) / 10 else 0) ≤ 3 / 10 := by
      split <;> norm_num
    have t2 : 0 ≤ (if jsTrim components.categories ≠ "" then (1 : ℚ) / 4 else 0) ∧
        (if jsTrim components.categories ≠ "" then (1 : ℚ) / 4 else 0) ≤ 1 / 4 := by
      split <;> norm_num
    have t3 : 0 ≤ (if jsTrim components.description ≠ "" then (1 : ℚ) / 5 else 0) ∧
        (if jsTrim components.description ≠ "" then (1 : ℚ) / 5 else 0) ≤ 1 / 5 := by
      split <;> norm_num
    have t4 : 0 ≤ (if 0 < denseKeyCount denseEmbeddings then (1 : ℚ) / 10 else 0) ∧
        (if 0 < denseKeyCount denseEmbeddings then (1 : ℚ) / 10 else 0) ≤ 1 / 10 := by
      split <;> norm_num
    have t5 : 0 ≤ (if 0 < (sparseEmbedding.getD []).length then (1 : ℚ) / 20 else 0) ∧
        (if 0 < (sparseEmbedding.getD []).length then (1 : ℚ) / 20 else 0) ≤ 1 / 20 := by
      split <;> norm_num
    have t6 : 0 ≤ (if jsTrim components.brands ≠ "" then (1 : ℚ) / 20 else 0) ∧
        (if jsTrim components.brands ≠ "" then (1 : ℚ) / 20 else 0) ≤ 1 / 20 := by
      split <;> norm_num
    have t7 : 0 ≤ (if jsTrim components.attributes ≠ "" then (1 : ℚ) / 20 else 0) ∧
        (if jsTrim components.attributes ≠ "" then (1 : ℚ) / 20 else 0) ≤ 1 / 20 := by
      split <;> norm_num
    constructor
    · linarith [t1.1, t2.1, t3.1, t4.1, t5.1, t6.1, t7.1]
    · linarith [t1.2, t2.2, t3.2, t4.2, t5.2, t6.2, t7.2]
  have hb := jsRoundTo_two_bounds _ hind.1 hind.2
  exact ⟨hEq, by rw [hEq]; exact hb.1, by rw [hEq]; exact hb.2⟩

/-- C2: the sparse vector is the five boosted component extractions combined
by per-term weight summation, sorted descending by combined weight, truncated
to `MAX_SPARSE_FEATURES` and formatted as `term:weight` with 4-decimal
precision; in particular its length never exceeds `MAX_SPARSE_FEATURES`. -/
theorem c2_sparse_vector (extract : Extractor) (text : String) (comps : SearchComponents) :
    generateSparseEmbedding extract text (some comps) = some (sparseBody extract text comps) ∧
    (sparseBody extract text comps).length ≤ MAX_SPARSE_FEATURES ∧
    sparseBody extract text comps =
      ((sortDescWeight (sparseCombined extract text (some comps))).take MAX_SPARSE_FEATURES).map
        (fun p => p.1 ++ ":" ++ jsToFixed 4 p.2) ∧
    ((sortDescWeight (sparseCombined extract text (some comps))).take
        MAX_SPARSE_FEATURES).Pairwise (fun a b => b.2 ≤ a.2) ∧
    ∀ p ∈ sparseCombined extract text (some comps),
      p.2 = specCombinedWeight (sparseGeneral extract text) (sparseTitle extract (some comps))
          (sparseCategory extract (some comps)) (sparseBrand extract (some comps))
          (sparseAttributes extract (some comps)) p.1 := by
  refine ⟨rfl, ?_, rfl, ?_, ?_⟩
  · unfold sparseBody
    simp [List.length_take]
  · exact (sortDescWeight_pairwise _).sublist (List.take_sublist _ _)
  · intro p hp
    have hl := weightLookup_of_mem _ (sparseCombined_keys_nodup extract text (some comps)) p hp
    have hval : (weightLookup (sparseCombined extract text (some comps)) p.1).getD 0 = p.2 := by
      rw [hl]
      rfl
    rw [← hval]
    unfold sparseCombined combinedKeywordEntries specCombinedWeight
    rw [weightLookup_addComponentKeywords, weightLookup_addComponentKeywords,
      weightLookup_addComponentKeywords, weightLookup_addComponentKeywords,
      weightLookup_addComponentKeywords]
    simp only [weightLookup, Option.getD_none]
    ring

theorem convertGenericProduct_inv (env : JsEnv) (raw : RawProduct) (p : Product)
    (h : convertGenericProduct env raw = some p) :
    p.id =
      jsOrString raw.id
        (jsOrString raw.product_id
          (jsOrString raw.sku ("generic-product-" ++ toString env.now))) := by
  unfold convertGenericProduct at h
  rcases hq : genericPriceCandidate raw with _ | q
  · rw [hq] at h
    simp only [Option.some.injEq] at h
    subst h
    rfl
  · rw [hq] at h
    by_cases h0 : q = 0
    · simp only [processPriceInfo, CONFIG_COMMERCE, if_pos h0, Option.some.injEq] at h
      subst h
      rfl
    · simp only [processPriceInfo, CONFIG_COMMERCE, if_neg h0] at h
      simp at h

theorem convertVertexProduct_inv (env : JsEnv) (raw : RawProduct) (q : Product)
    (h : convertVertexProduct env raw = some q) :
    q.id = jsOrString raw.id ("vertex-product-" ++ toString env.now) ∧
    q.availability =
      (match raw.availability with
      | some v => if truthyVal (some v) then jvalToString v else "IN_STOCK"
      | none => "IN_STOCK") := by
  unfold convertVertexProduct at h
  rcases hv : vertexPriceInfo raw.price with e | pi
  · rw [hv] at h
    simp at h
  · rw [hv] at h
    simp only [Option.some.injEq] at h
    subst h
    exact ⟨rfl, rfl⟩

theorem orElse_eq_some' (a : Option String) (b : Unit → Option String) (r : String)
    (h : a.orElse b = some r) : a = some r ∨ (a = none ∧ b () = some r) := by
  cases a <;> simp_all [Option.orElse]

theorem foldl_orElse_acc_some (fields : List (Option JVal)) (g : JVal → Option String)
    (x : String) :
    fields.foldl (fun acc f => acc.orElse fun _ => f.bind g) (some x) = some x := by
  induction fields with
  | nil => rfl
  | cons f rest ih => simpa [Option.orElse] using ih

theorem foldl_orElse_enum (P : String → Prop) (fields : List (Option JVal))
    (g : JVal → Option String) (henum : ∀ v r, g v = some r → P r) (acc : Option String)
    (hacc : ∀ r, acc = some r → P r) (r : String)
    (h : fields.foldl (fun acc f => acc.orElse fun _ => f.bind g) acc = some r) : P r := by
  induction fields generalizing acc with
  | nil => exact hacc r h
  | cons f rest ih =>
    refine ih _ ?_ h
    intro r' h'
    rcases orElse_eq_some' _ _ _ h' with h'' | ⟨_, h''⟩
    · exact hacc r' h''
    · rcases Option.bind_eq_some.mp h'' with ⟨v, _, hg⟩
      exact henum v r' hg

theorem availabilityFromField_enum (v : JVal) (r : String)
    (h : availabilityFromField v = some r) : r = "IN_STOCK" ∨ r = "OUT_OF_STOCK" := by
  unfold availabilityFromField at h
  dsimp only at h
  split_ifs at h
  · exact Or.inl (Option.some.inj h).symm
  · exact Or.inr (Option.some.inj h).symm

theorem quantityFromField_enum (v : JVal) (r : String)
    (h : quantityFromField v = some r) : r = "IN_STOCK" ∨ r = "OUT_OF_STOCK" := by
  unfold quantityFromField at h
  by_cases hn : jsIsNaNVal v = true
  · rw [if_pos hn] at h
    exact absurd h (by simp)
  · rw [if_neg hn] at h
    have hr := Option.some.inj h
    rcases hpv : jsParseIntVal v with _ | n <;> rw [hpv] at hr <;> dsimp only at hr
    · exact Or.inr hr.symm
    · by_cases h0 : 0 < n
      · rw [if_pos h0] at hr
        exact Or.inl hr.symm
      · rw [if_neg h0] at hr
        exact Or.inr hr.symm

theorem jsOrString_of_not_truthy (v : Option String) (fb : String) (h : ¬ truthyStr v = true) :
    jsOrString v fb = fb := by
  cases v <;> simp_all [jsOrString, truthyStr]

theorem determineGeneric_eqA (p : RawProduct) (r : String)
    (h : resolveAvailabilityFields p = some r) : determineGenericAvailability p = r := by
  simp [determineGenericAvailability, h, Option.orElse]

theorem determineGeneric_eqQ (p : RawProduct) (r : String)
    (ha : resolveAvailabilityFields p = none) (hq : resolveQuantityFields p = some r) :
    determineGenericAvailability p = r := by
  simp [determineGenericAvailability, ha, hq, Option.orElse]

theorem determineGeneric_default (p : RawProduct)
    (ha : resolveAvailabilityFields p = none) (hq : resolveQuantityFields p = none) :
    determineGenericAvailability p = "IN_STOCK" := by
  simp [determineGenericAvailability, ha, hq, Option.orElse]

theorem resolveAvailabilityFields_enum (p : RawProduct) (r : String)
    (h : resolveAvailabilityFields p = some r) : r = "IN_STOCK" ∨ r = "OUT_OF_STOCK" := by
  unfold resolveAvailabilityFields at h
  exact foldl_orElse_enum _ _ _ availabilityFromField_enum none (by simp) r h

theorem resolveQuantityFields_enum (p : RawProduct) (r : String)
    (h : resolveQuantityFields p = some r) : r = "IN_STOCK" ∨ r = "OUT_OF_STOCK" := by
  unfold resolveQuantityFields at h
  exact foldl_orElse_enum _ _ _ quantityFromField_enum none (by simp) r h

/-- C6 (amended): the generic converter's availability is always one of the
two enum values, with the precedence explicit status fields → quantity fields
→ `IN_STOCK` default; the vertex converter passes the source's availability
value through verbatim (defaulting to `IN_STOCK` only when it is falsy). -/
theorem c6_availability (p : RawProduct) :
    (determineGenericAvailability p = "IN_STOCK" ∨
        determineGenericAvailability p = "OUT_OF_STOCK") ∧
    (∀ r, resolveAvailabilityFields p = some r → determineGenericAvailability p = r) ∧
    (resolveAvailabilityFields p = none →
      ∀ r, resolveQuantityFields p = some r → determineGenericAvailability p = r) ∧
    (resolveAvailabilityFields p = none → resolveQuantityFields p = none →
      determineGenericAvailability p = "IN_STOCK") ∧
    (∀ n : ℤ, resolveAvailabilityFields p = none → p.quantity = some (.int n) →
      determineGenericAvailability p = if 0 < n then "IN_STOCK" else "OUT_OF_STOCK") ∧
    ∀ (env : JsEnv) (raw : RawProduct) (q : Product), convertVertexProduct env raw = some q →
      q.availability =
        (match raw.availability with
        | some v => if truthyVal (some v) then jvalToString v else "IN_STOCK"
        | none => "IN_STOCK") := by
  refine ⟨?_, fun r h => determineGeneric_eqA p r h,
    fun ha r hq => determineGeneric_eqQ p r ha hq,
    fun ha hq => determineGeneric_default p ha hq, ?_, ?_⟩
  · rcases ha : resolveAvailabilityFields p with _ | r
    · rcases hq : resolveQuantityFields p with _ | r
      · exact Or.inl (determineGeneric_default p ha hq)
      · rw [determineGeneric_eqQ p r ha hq]
        exact resolveQuantityFields_enum p r hq
    · rw [determineGeneric_eqA p r ha]
      exact resolveAvailabilityFields_enum p r ha
  · intro n ha hq
    have hr : resolveQuantityFields p =
        some (if 0 < n then "IN_STOCK" else "OUT_OF_STOCK") := by
      unfold resolveQuantityFields
      rw [hq]
      simp [List.foldl, Option.orElse, quantityFromField, jsIsNaNVal, jsParseIntVal]
    exact determineGeneric_eqQ p _ ha hr
  · intro env raw q hq
    exact (convertVertexProduct_inv env raw q hq).2

/-- C5 (amended): the canonical id of a successfully converted generic record
is never empty, and when the source offers none of `id`, `product_id`, `sku`
it is synthesized from the wall clock as `generic-product-<Date.now()>`; the
vertex converter's id is likewise non-empty. -/
theorem c5_synthesized_id (env : JsEnv) (raw : RawProduct) (p : Product)
    (h : convertGenericProduct env raw = some p) :
    p.id ≠ "" ∧
    (¬ truthyStr raw.id = true → ¬ truthyStr raw.product_id = true →
      ¬ truthyStr raw.sku = true → p.id = "generic-product-" ++ toString env.now) ∧
    ∀ (q : Product), convertVertexProduct env raw = some q → q.id ≠ "" := by
  have hid := convertGenericProduct_inv env raw p h
  refine ⟨?_, ?_, ?_⟩
  · rw [hid]
    refine jsOrString_ne_empty _ _ (jsOrString_ne_empty _ _ (jsOrString_ne_empty _ _ ?_))
    exact append_ne_empty_left _ _ (by decide)
  · intro h1 h2 h3
    rw [hid, jsOrString_of_not_truthy _ _ h1, jsOrString_of_not_truthy _ _ h2,
      jsOrString_of_not_truthy _ _ h3]
  · intro q hq
    rw [(convertVertexProduct_inv env raw q hq).1]
    exact jsOrString_ne_empty _ _ (append_ne_empty_left _ _ (by decide))

theorem injectEmbeddingAttrs_lookup_ne (attrs : List (String × AttrVal)) (d : DenseEmbeddings)
    (sp : Option (List String)) (hy : Option ℚ) (k : String)
    (hk : generatedAttrKeys.contains k = false) :
    objLookup (injectEmbeddingAttrs attrs d sp hy) k = objLookup attrs k := by
  have h1 : k ≠ "dense_embedding" := fun h => by subst h; simp [generatedAttrKeys] at hk
  have h2 : k ≠ "title_embedding" := fun h => by subst h; simp [generatedAttrKeys] at hk
  have h3 : k ≠ "category_embedding" := fun h => by subst h; simp [generatedAttrKeys] at hk
  have h4 : k ≠ "sparse_embedding" := fun h => by subst h; simp [generatedAttrKeys] at hk
  have h5 : k ≠ "search_readiness_score" := fun h => by subst h; simp [generatedAttrKeys] at hk
  have h6 : k ≠ "embedding_count" := fun h => by subst h; simp [generatedAttrKeys] at hk
  obtain ⟨dp, dt, dc⟩ := d
  unfold injectEmbeddingAttrs
  cases dp <;> cases dt <;> cases dc <;> cases sp <;> cases hy <;> dsimp only <;>
    split_ifs <;>
    simp [objLookup_objSet_ne, h1, h2, h3, h4, h5, h6]

/-- C10 (amended): a successful enrichment returns a record that agrees with
the input on every non-attribute field, and within attributes on every key
other than the six generated ones (those may be added or overwritten). -/
theorem c10_enrichment_frame (fault : Option String) (env : JsEnv) (extract : Extractor)
    (product : Product) (format : String) (q : Product)
    (h : addEmbeddingsTry fault env extract product format = .ok q) (k : String)
    (hk : generatedAttrKeys.contains k = false) :
    q.id = product.id ∧ q.title = product.title ∧ q.categories = product.categories ∧
    q.description = product.description ∧ q.uri = product.uri ∧
    q.availability = product.availability ∧ q.languageCode = product.languageCode ∧
    q.priceInfo = product.priceInfo ∧ q.brands = product.brands ∧ q.images = product.images ∧
    objLookup q.attributes k = objLookup product.attributes k := by
  unfold addEmbeddingsTry at h
  by_cases ht : jsTrim (extractSearchableText product format) = ""
  · rw [if_pos ht] at h
    have hpq := Except.ok.inj h
    subst hpq
    exact ⟨rfl, rfl, rfl, rfl, rfl, rfl, rfl, rfl, rfl, rfl, rfl⟩
  · rw [if_neg ht] at h
    cases fault with
    | some e => exact absurd h (by simp)
    | none =>
      dsimp only at h
      have hq := (Except.ok.inj h).symm
      subst hq
      refine ⟨rfl, rfl, rfl, rfl, rfl, rfl, rfl, rfl, rfl, rfl, ?_⟩
      dsimp only
      exact injectEmbeddingAttrs_lookup_ne _ _ _ _ k hk

/-- C9 (amended): files recorded complete in the checkpoint are never handed
to the per-file processor again; after a run that completes its file loop the
pre-existing checkpoint store is deleted (regardless of per-file failures),
and a run-level abort (empty discovery) leaves it in place. -/
theorem c9_checkpoint_resume (checkpointFiles discovered : List String)
    (fileSucceeds : String → Bool) (f : String) (hmem : f ∈ checkpointFiles)
    (hne : discovered ≠ []) :
    f ∉ (processAllDataFilesRun true checkpointFiles discovered fileSucceeds).openedFiles ∧
    (processAllDataFilesRun true checkpointFiles discovered fileSucceeds).checkpointDeleted
        = true ∧
    (processAllDataFilesRun true checkpointFiles [] fileSucceeds).runFailed = true ∧
    (processAllDataFilesRun true checkpointFiles [] fileSucceeds).checkpointDeleted = false := by
  have hne' : discovered.isEmpty = false := by simpa using hne
  unfold processAllDataFilesRun
  rw [hne']
  refine ⟨?_, by simp [CHECKPOINT_ENABLED], rfl, rfl⟩
  intro hf
  simp only [CHECKPOINT_ENABLED, if_pos (by trivial : (True ∧ True : Prop))] at hf
  have := (List.mem_filter.mp hf).2
  simp at this
  exact this hmem

/-- C1: the enrichment outputs depend only on the input text and the fixed
mathematical library — two environments that agree on `Math.sin`/`Math.sqrt`
but differ arbitrarily in the wall clock produce identical dense vectors and
identical enriched records (`generateSparseEmbedding` and
`calculateSearchReadinessScore` are environment-free by definition, so the
whole enrichment is clock-independent). -/
theorem c1_enrichment_deterministic (e₁ e₂ : JsEnv) (hsin : e₁.sin = e₂.sin)
    (hsqrt : e₁.sqrt = e₂.sqrt) (text : String) (fault : Option String) (extract : Extractor)
    (product : Product) (format : String) :
    generateDenseEmbedding e₁ text = generateDenseEmbedding e₂ text ∧
    addEmbeddingsToProduct fault e₁ extract product format =
      addEmbeddingsToProduct fault e₂ extract product format := by
  have hd : generateDenseEmbedding e₁ = generateDenseEmbedding e₂ := by
    funext t
    unfold generateDenseEmbedding
    rw [hsin, hsqrt]
  have hm : generateMultipleDenseEmbeddings e₁ = generateMultipleDenseEmbeddings e₂ := by
    funext st sc
    unfold generateMultipleDenseEmbeddings
    rw [hd]
  refine ⟨congrFun hd text, ?_⟩
  unfold addEmbeddingsToProduct addEmbeddingsTry
  rw [hm]

/-- C7: whenever the enrichment body throws, `addEmbeddingsToProduct` catches
the exception and returns its argument record unchanged — the record is never
dropped. -/
theorem c7_enrichment_catch (fault : Option String) (env : JsEnv) (extract : Extractor)
    (product : Product) (format : String) (e : String)
    (h : addEmbeddingsTry fault env extract product format = .error e) :
    addEmbeddingsToProduct fault env extract product format = product := by
  unfold addEmbeddingsToProduct
  rw [h]

section

attribute [local semireducible] Rat.add Rat.mul Rat.inv Rat.sub

set_option maxRecDepth 8000

/-- C4: on the bare array `[{"name":"Widget","cost":5}]` the pipeline's
detection step (which re-wraps the parsed products in a fresh `{products}`
object) reports `vertex`, although `detectFormatAndExtractProducts` applied
to the file's actual top-level array reports `generic`; the vertex converter
then emits title `Untitled Product` and no price, and even the generic
converter would drop the record because `processPriceInfo` reads the absent
`CONFIG.COMMERCE`. -/
theorem c4_scenario_b_eval :
    processAnyJSONFileFormat (.arrayOf [widgetRaw]) "auto" = "vertex" ∧
    (detectFormatAndExtractProducts (.arrayOf [widgetRaw]) "auto").2 = "generic" ∧
    (convertForFormat sampleEnv "vertex" widgetRaw).map Product.title =
        some "Untitled Product" ∧
    (convertForFormat sampleEnv "vertex" widgetRaw).map Product.priceInfo = some none ∧
    convertForFormat sampleEnv "generic" widgetRaw = none := by
  refine ⟨by decide, by decide, by decide, by decide, by decide⟩

/-- C1 witness: a concrete text and record enriched under two environments
that share the mathematical library but differ in the wall clock. -/
theorem c1_witness :
    generateDenseEmbedding sampleEnv "Red Shirt" =
        generateDenseEmbedding sampleEnvLater "Red Shirt" ∧
    addEmbeddingsToProduct none sampleEnv emptyExtractor sampleRecord "auto" =
      addEmbeddingsToProduct none sampleEnvLater emptyExtractor sampleRecord "auto" :=
  c1_enrichment_deterministic sampleEnv sampleEnvLater rfl rfl "Red Shirt" none emptyExtractor
    sampleRecord "auto"

/-- C7 witness: a forced exception at the generation step returns the record
unchanged. -/
theorem c7_witness :
    addEmbeddingsToProduct (some "boom") sampleEnv emptyExtractor sampleRecord "auto" =
      sampleRecord :=
  c7_enrichment_catch (some "boom") sampleEnv emptyExtractor sampleRecord "auto" "boom"
    (by decide)

/-- C5 counterexample: the same no-id source record normalized at two
different clock instants receives two different synthesized ids. -/
theorem c5_counterexample :
    (convertGenericProduct sampleEnv noIdRecord).map Product.id =
        some "generic-product-0" ∧
    (convertGenericProduct sampleEnvLater noIdRecord).map Product.id =
        some "generic-product-1" ∧
    ("generic-product-0" : String) ≠ "generic-product-1" := by
  refine ⟨by decide, by decide, by decide⟩

/-- C5 witness: the amended id shape at a concrete record and environment. -/
theorem c5_witness :
    ((convertGenericProduct sampleEnv noIdRecord).getD sampleRecord).id ≠ "" ∧
    (¬ truthyStr noIdRecord.id = true → ¬ truthyStr noIdRecord.product_id = true →
      ¬ truthyStr noIdRecord.sku = true →
      ((convertGenericProduct sampleEnv noIdRecord).getD sampleRecord).id =
        "generic-product-" ++ toString sampleEnv.now) ∧
    ∀ (q : Product), convertVertexProduct sampleEnv noIdRecord = some q → q.id ≠ "" :=
  c5_synthesized_id sampleEnv noIdRecord _ (by decide)

/-- C6 counterexample: a vertex source with availability `BACKORDER` emits a
record whose availability is neither `IN_STOCK` nor `OUT_OF_STOCK`. -/
theorem c6_counterexample :
    (convertVertexProduct sampleEnv backorderRaw).map Product.availability =
        some "BACKORDER" ∧
    (convertVertexProduct sampleEnv backorderRaw).map Product.availability ≠
        some "IN_STOCK" ∧
    (convertVertexProduct sampleEnv backorderRaw).map Product.availability ≠
        some "OUT_OF_STOCK" := by
  refine ⟨by decide, by decide, by decide⟩

/-- C9 counterexample: a run in which one discovered file fails still deletes
the pre-existing checkpoint store. -/
theorem c9_counterexample :
    (processAllDataFilesRun true [] ["alpha.json", "beta.json"]
          (fun f => f == "alpha.json")).failedFiles = ["beta.json"] ∧
    (processAllDataFilesRun true [] ["alpha.json", "beta.json"]
          (fun f => f == "alpha.json")).checkpointDeleted = true := by
  refine ⟨by decide, by decide⟩

/-- C9 witness: a concrete resumed run skipping the completed file. -/
theorem c9_witness :
    "alpha.json" ∉ (processAllDataFilesRun true ["alpha.json"] ["alpha.json", "beta.json"]
        (fun _ => true)).openedFiles ∧
    (processAllDataFilesRun true ["alpha.json"] ["alpha.json", "beta.json"]
        (fun _ => true)).checkpointDeleted = true ∧
    (processAllDataFilesRun true ["alpha.json"] [] (fun _ => true)).runFailed = true ∧
    (processAllDataFilesRun true ["alpha.json"] [] (fun _ => true)).checkpointDeleted = false :=
  c9_checkpoint_resume ["alpha.json"] ["alpha.json", "beta.json"] (fun _ => true) "alpha.json"
    (by decide) (by decide)

/-- C10 counterexample: a record whose attributes already hold an
`embedding_count` key does not keep its original value through enrichment —
the generated value overwrites it. -/
theorem c10_counterexample :
    objLookup preloadedRecord.attributes "embedding_count" = some (.text []) ∧
    objLookup
        (addEmbeddingsToProduct none sampleEnv emptyExtractor preloadedRecord "auto").attributes
        "embedding_count" = some (.numbers [4]) := by
  refine ⟨by decide, by decide⟩

/-- C10 witness: the frame property at a concrete record and the untouched
key `sku`. -/
theorem c10_witness :
    (addEmbeddingsToProduct none sampleEnv emptyExtractor sampleRecord "auto").id =
        sampleRecord.id ∧
    (addEmbeddingsToProduct none sampleEnv emptyExtractor sampleRecord "auto").title =
        sampleRecord.title ∧
    (addEmbeddingsToProduct none sampleEnv emptyExtractor sampleRecord "auto").categories =
        sampleRecord.categories ∧
    (addEmbeddingsToProduct none sampleEnv emptyExtractor sampleRecord "auto").description =
        sampleRecord.description ∧
    (addEmbeddingsToProduct none sampleEnv emptyExtractor sampleRecord "auto").uri =
        sampleRecord.uri ∧
    (addEmbeddingsToProduct none sampleEnv emptyExtractor sampleRecord "auto").availability =
        sampleRecord.availability ∧
    (addEmbeddingsToProduct none sampleEnv emptyExtractor sampleRecord "auto").languageCode =
        sampleRecord.languageCode ∧
    (addEmbeddingsToProduct none sampleEnv emptyExtractor sampleRecord "auto").priceInfo =
        sampleRecord.priceInfo ∧
    (addEmbeddingsToProduct none sampleEnv emptyExtractor sampleRecord "auto").brands =
        sampleRecord.brands ∧
    (addEmbeddingsToProduct none sampleEnv emptyExtractor sampleRecord "auto").images =
        sampleRecord.images ∧
    objLookup (addEmbeddingsToProduct none sampleEnv emptyExtractor sampleRecord "auto").attributes
        "sku" = objLookup sampleRecord.attributes "sku" :=
  c10_enrichment_frame none sampleEnv emptyExtractor sampleRecord "auto"
    (addEmbeddingsToProduct none sampleEnv emptyExtractor sampleRecord "auto") (by decide) "sku"
    (by decide)

end
